import Mathlib

/-!
A shallow embedding of the jasminesnake JavaScript AST front-end:
`src/jasminesnake/ast/nodes.py` (the node model),
`src/jasminesnake/ast/parse_tree_listeners.py` (the parse-tree builders) and
`src/jasminesnake/ast/__init__.py` (`from_parse_tree` and `to_ascii_tree`).

Modelling conventions:
* Python exceptions become `Except PyError`; `ValueError`, `NotImplementedError`
  and `AttributeError` (raised by attribute access on `None` or on a missing
  attribute) are the only exceptions the embedded code can raise.
* Python `int` is `Int`; Python `str` is `String`; `str(int)` is `intStr`.
* Python `float` values (`NumericLiteral.value`) are kept abstractly as the
  string `str(float(...))` would render, since no claim depends on numeric
  semantics.
* AST node objects are modelled by the universal value type `PyVal`, which
  records exactly the data the pretty printer and the claims observe: the
  `type` tag, the `loc` object, which `__str__` override the class has, and
  the ordered `_fields` mapping built by the `__init__` chain.
-/

namespace JS

/-- The Python exceptions raised by the embedded code. -/
inductive PyError where
  | valueError (msg : String)
  | notImplementedError (msg : String)
  | attributeError
  deriving DecidableEq, Repr

deriving instance DecidableEq for Except

/-- One decimal digit character, as Python's `str(int)` renders it. -/
def digitChar : Nat → Char
  | 0 => '0'
  | 1 => '1'
  | 2 => '2'
  | 3 => '3'
  | 4 => '4'
  | 5 => '5'
  | 6 => '6'
  | 7 => '7'
  | 8 => '8'
  | _ => '9'

/-- The characters of Python's `str(n)` for a non-negative integer. -/
def natChars (n : Nat) : List Char :=
  if n < 10 then [digitChar n]
  else natChars (n / 10) ++ [digitChar (n % 10)]
  termination_by n
  decreasing_by
    omega

/-- The characters of Python's `str(i)` for an integer. -/
def intChars (i : Int) : List Char :=
  if i < 0 then '-' :: natChars i.natAbs else natChars i.toNat

/-- Python's `str(n)` for a natural number. -/
def natStr (n : Nat) : String := ⟨natChars n⟩

/-- Python's `str(i)` for an integer. -/
def intStr (i : Int) : String := ⟨intChars i⟩

/-- An ESTree position (`nodes.Position`): a line number and a column number.
The range check lives in `Position.init`. -/
structure Position where
  line : Int
  column : Int
  deriving DecidableEq, Repr

/-- The message `Position.__init__` formats for an invalid position. -/
def posErrMsg (line column : Int) : String :=
  "L" ++ intStr line ++ ":C" ++ intStr column ++ " is not valid ESTree position!"

/-- `Position.__init__`: fails with `ValueError` when `line < 1 or column < 0`. -/
def Position.init (line column : Int) : Except PyError Position :=
  if line < 1 || column < 0 then .error (.valueError (posErrMsg line column))
  else .ok ⟨line, column⟩

/-- `Position.__str__`. -/
def Position.str (p : Position) : String :=
  intStr p.line ++ ":" ++ intStr p.column

/-- `nodes.SourceLocation`: an optional source name plus start/end positions.
The Python attribute `end` is called `endPos` here (`end` is a Lean keyword). -/
structure SourceLocation where
  source : Option String
  start : Position
  endPos : Position
  deriving DecidableEq, Repr

/-- `SourceLocation.__str__`. -/
def SourceLocation.str (l : SourceLocation) : String :=
  (match l.source with
   | Option.none => ""
   | some s => s ++ ":") ++ Position.str l.start

/-- `nodes.UnaryOperator`. -/
inductive UnaryOperator where
  | MINUS | PLUS | NOT_LOGIC | NOT_BIT | TYPEOF | VOID | DELETE
  deriving DecidableEq, Repr

/-- The `value` of each `UnaryOperator` member. -/
def UnaryOperator.value : UnaryOperator → String
  | .MINUS => "-"
  | .PLUS => "+"
  | .NOT_LOGIC => "!"
  | .NOT_BIT => "~"
  | .TYPEOF => "typeof"
  | .VOID => "void"
  | .DELETE => "delete"

/-- `nodes.UpdateOperator`. -/
inductive UpdateOperator where
  | INCREMENT | DECREMENT
  deriving DecidableEq, Repr

/-- The `value` of each `UpdateOperator` member. -/
def UpdateOperator.value : UpdateOperator → String
  | .INCREMENT => "++"
  | .DECREMENT => "--"

/-- `nodes.BinaryOperator`. -/
inductive BinaryOperator where
  | EQ | NEQ | EQ_IDENTITY | NEQ_IDENTITY
  | LT | LTE | GT | GTE
  | SHL | SHR | SHR_LOGIC
  | ADD | SUB | MUL | DIV | MOD
  | OR | XOR | AND
  | IN | INSTANCEOF | POW
  deriving DecidableEq, Repr

/-- The `value` of each `BinaryOperator` member. -/
def BinaryOperator.value : BinaryOperator → String
  | .EQ => "=="
  | .NEQ => "!="
  | .EQ_IDENTITY => "==="
  | .NEQ_IDENTITY => "!=="
  | .LT => "<"
  | .LTE => "<="
  | .GT => ">"
  | .GTE => ">="
  | .SHL => "<<"
  | .SHR => ">>"
  | .SHR_LOGIC => ">>>"
  | .ADD => "+"
  | .SUB => "-"
  | .MUL => "*"
  | .DIV => "/"
  | .MOD => "%"
  | .OR => "|"
  | .XOR => "^"
  | .AND => "&"
  | .IN => "in"
  | .INSTANCEOF => "instanceof"
  | .POW => "**"

/-- `nodes.AssignmentOperator`. -/
inductive AssignmentOperator where
  | ASSIGN | ADD | SUB | MUL | DIV | MOD
  | SHL | SHR | SHR_LOGIC
  | OR | XOR | AND | POW
  deriving DecidableEq, Repr

/-- The `value` of each `AssignmentOperator` member. -/
def AssignmentOperator.value : AssignmentOperator → String
  | .ASSIGN => "="
  | .ADD => "+="
  | .SUB => "-="
  | .MUL => "*="
  | .DIV => "/="
  | .MOD => "%="
  | .SHL => "<<="
  | .SHR => ">>="
  | .SHR_LOGIC => ">>>="
  | .OR => "|="
  | .XOR => "^="
  | .AND => "&="
  | .POW => "**="

/-- `nodes.LogicalOperator`. -/
inductive LogicalOperator where
  | OR | AND | NULLISH_COALESCING
  deriving DecidableEq, Repr

/-- The `value` of each `LogicalOperator` member. -/
def LogicalOperator.value : LogicalOperator → String
  | .OR => "||"
  | .AND => "&&"
  | .NULLISH_COALESCING => "??"

/-- Which `__str__` implementation a node object carries.  `Node.__str__` is
the default; `NullLiteral`, `BooleanLiteral` and `StringLiteral` override it. -/
inductive StrKind where
  | default
  | nullLit
  | boolLit (b : Bool)
  | strLit (s : String)
  deriving DecidableEq, Repr

/-- A Python runtime value as observed by the pretty printer and the claims:
strings, booleans, `None`, floats (as their `str()` rendering), ints, enum
members (as their `.value` string), `Position` and `SourceLocation` objects,
AST node objects, lists and tuples. -/
inductive PyVal where
  | str (s : String)
  | pbool (b : Bool)
  | pnone
  | num (floatRepr : String)
  | int (i : Int)
  | enum (value : String)
  | pos (p : Position)
  | locv (l : SourceLocation)
  | node (typeTag : String) (loc : Option SourceLocation) (sk : StrKind)
         (fields : List (String × PyVal))
  | list (xs : List PyVal)
  | tuple (xs : List PyVal)
  deriving Repr

namespace Nodes

/-- A Python `Optional[SourceLocation]` attribute value as stored in `_fields`. -/
def locVal : Option SourceLocation → PyVal
  | Option.none => .pnone
  | some l => .locv l

/-- A Python `Optional[<node>]` argument as stored in `_fields`. -/
def optVal : Option PyVal → PyVal
  | Option.none => .pnone
  | some v => v

/-- `Node.__init__`: the base ordered `_fields` mapping `{type, loc}`. -/
def baseFields (nodeType : String) (loc : Option SourceLocation) :
    List (String × PyVal) :=
  [("type", .str nodeType), ("loc", locVal loc)]

/-- `nodes.Node` (instantiable abstract base). -/
def Node (nodeType : String) (loc : Option SourceLocation) : PyVal :=
  .node nodeType loc .default (baseFields nodeType loc)

/-- `nodes.Program`. -/
def Program (loc : Option SourceLocation) (sourceType : String)
    (body : List PyVal) : PyVal :=
  .node "Program" loc .default
    (baseFields "Program" loc ++
      [("sourceType", .str sourceType), ("body", .list body)])

/-- The `_fields.update` performed by `Function.__init__`. -/
def functionFields (functionId : Option PyVal) (params : List PyVal)
    (body : PyVal) : List (String × PyVal) :=
  [("id", optVal functionId), ("params", .list params), ("body", body)]

/-- `nodes.Function`. -/
def Function (nodeType : String) (loc : Option SourceLocation)
    (functionId : Option PyVal) (params : List PyVal) (body : PyVal) : PyVal :=
  .node nodeType loc .default
    (baseFields nodeType loc ++ functionFields functionId params body)

/-- `nodes.Statement`. -/
def Statement (nodeType : String) (loc : Option SourceLocation) : PyVal :=
  .node nodeType loc .default (baseFields nodeType loc)

/-- `nodes.EmptyStatement`. -/
def EmptyStatement (loc : Option SourceLocation) : PyVal :=
  .node "EmptyStatement" loc .default (baseFields "EmptyStatement" loc)

/-- `nodes.BlockStatement`. -/
def BlockStatement (loc : Option SourceLocation) (body : List PyVal) : PyVal :=
  .node "BlockStatement" loc .default
    (baseFields "BlockStatement" loc ++ [("body", .list body)])

/-- `nodes.ExpressionStatement`. -/
def ExpressionStatement (loc : Option SourceLocation) (expression : PyVal) :
    PyVal :=
  .node "ExpressionStatement" loc .default
    (baseFields "ExpressionStatement" loc ++ [("expression", expression)])

/-- `nodes.Directive`. -/
def Directive (loc : Option SourceLocation) (expression : PyVal)
    (directive : String) : PyVal :=
  .node "Directive" loc .default
    (baseFields "Directive" loc ++
      [("expression", expression), ("directive", .str directive)])

/-- `nodes.FunctionBody` (a `BlockStatement`). -/
def FunctionBody (loc : Option SourceLocation) (body : List PyVal) : PyVal :=
  BlockStatement loc body

/-- `nodes.ReturnStatement`. -/
def ReturnStatement (loc : Option SourceLocation) (argument : Option PyVal) :
    PyVal :=
  .node "ReturnStatement" loc .default
    (baseFields "ReturnStatement" loc ++ [("argument", optVal argument)])

/-- `nodes.BreakStatement`. -/
def BreakStatement (loc : Option SourceLocation) (label : Option PyVal) :
    PyVal :=
  .node "BreakStatement" loc .default
    (baseFields "BreakStatement" loc ++ [("label", optVal label)])

/-- `nodes.ContinueStatement`. -/
def ContinueStatement (loc : Option SourceLocation) (label : Option PyVal) :
    PyVal :=
  .node "ContinueStatement" loc .default
    (baseFields "ContinueStatement" loc ++ [("label", optVal label)])

/-- `nodes.IfStatement`. -/
def IfStatement (loc : Option SourceLocation) (test consequent : PyVal)
    (alternate : Option PyVal) : PyVal :=
  .node "IfStatement" loc .default
    (baseFields "IfStatement" loc ++
      [("test", test), ("consequent", consequent),
       ("alternate", optVal alternate)])

/-- `nodes.WhileStatement`. -/
def WhileStatement (loc : Option SourceLocation) (test body : PyVal) : PyVal :=
  .node "WhileStatement" loc .default
    (baseFields "WhileStatement" loc ++ [("test", test), ("body", body)])

/-- `nodes.DoWhileStatement`. -/
def DoWhileStatement (loc : Option SourceLocation) (body test : PyVal) :
    PyVal :=
  .node "DoWhileStatement" loc .default
    (baseFields "DoWhileStatement" loc ++ [("body", body), ("test", test)])

/-- `nodes.ForStatement`. -/
def ForStatement (loc : Option SourceLocation) (init test update : Option PyVal)
    (body : PyVal) : PyVal :=
  .node "ForStatement" loc .default
    (baseFields "ForStatement" loc ++
      [("init", optVal init), ("test", optVal test),
       ("update", optVal update), ("body", body)])

/-- `nodes.ForInStatement`. -/
def ForInStatement (loc : Option SourceLocation) (left right body : PyVal) :
    PyVal :=
  .node "ForInStatement" loc .default
    (baseFields "ForInStatement" loc ++
      [("left", left), ("right", right), ("body", body)])

/-- `nodes.Declaration`. -/
def Declaration (nodeType : String) (loc : Option SourceLocation) : PyVal :=
  .node nodeType loc .default (baseFields nodeType loc)

/-- `nodes.FunctionDeclaration`. -/
def FunctionDeclaration (loc : Option SourceLocation) (functionId : PyVal)
    (params : List PyVal) (body : PyVal) : PyVal :=
  Function "FunctionDeclaration" loc (some functionId) params body

/-- `nodes.VariableDeclarator`. -/
def VariableDeclarator (loc : Option SourceLocation) (varId : PyVal)
    (init : Option PyVal) : PyVal :=
  .node "VariableDeclarator" loc .default
    (baseFields "VariableDeclarator" loc ++
      [("id", varId), ("init", optVal init)])

/-- `nodes.VariableDeclaration`. -/
def VariableDeclaration (loc : Option SourceLocation) (kind : String)
    (declarations : List PyVal) : PyVal :=
  .node "VariableDeclaration" loc .default
    (baseFields "VariableDeclaration" loc ++
      [("kind", .str kind), ("declarations", .list declarations)])

/-- `nodes.Expression`. -/
def Expression (nodeType : String) (loc : Option SourceLocation) : PyVal :=
  .node nodeType loc .default (baseFields nodeType loc)

/-- `nodes.Super`. -/
def Super (loc : Option SourceLocation) : PyVal :=
  .node "Super" loc .default (baseFields "Super" loc)

/-- `nodes.SpreadElement`. -/
def SpreadElement (loc : Option SourceLocation) (argument : PyVal) : PyVal :=
  .node "SpreadElement" loc .default
    (baseFields "SpreadElement" loc ++ [("argument", argument)])

/-- `nodes.ThisExpression`. -/
def ThisExpression (loc : Option SourceLocation) : PyVal :=
  .node "ThisExpression" loc .default (baseFields "ThisExpression" loc)

/-- `nodes.ArrayExpression` (`.pnone` elements are sparse-array holes). -/
def ArrayExpression (loc : Option SourceLocation) (elements : List PyVal) :
    PyVal :=
  .node "ArrayExpression" loc .default
    (baseFields "ArrayExpression" loc ++ [("elements", .list elements)])

/-- `nodes.ObjectExpression`. -/
def ObjectExpression (loc : Option SourceLocation) (properties : List PyVal) :
    PyVal :=
  .node "ObjectExpression" loc .default
    (baseFields "ObjectExpression" loc ++ [("properties", .list properties)])

/-- `nodes.FunctionExpression`. -/
def FunctionExpression (loc : Option SourceLocation) (functionId : Option PyVal)
    (params : List PyVal) (body : PyVal) : PyVal :=
  Function "FunctionExpression" loc functionId params body

/-- `nodes.ArrowFunctionExpression`. -/
def ArrowFunctionExpression (loc : Option SourceLocation) (params : List PyVal)
    (body : PyVal) (expression : Bool) : PyVal :=
  .node "ArrowFunctionExpression" loc .default
    (baseFields "ArrowFunctionExpression" loc ++
      functionFields Option.none params body ++
      [("expression", .pbool expression)])

/-- `nodes.UnaryExpression`. -/
def UnaryExpression (loc : Option SourceLocation) (operator : UnaryOperator)
    (prefixFlag : Bool) (argument : PyVal) : PyVal :=
  .node "UnaryExpression" loc .default
    (baseFields "UnaryExpression" loc ++
      [("operator", .enum operator.value), ("prefix", .pbool prefixFlag),
       ("argument", argument)])

/-- `nodes.UpdateExpression`. -/
def UpdateExpression (loc : Option SourceLocation) (operator : UpdateOperator)
    (argument : PyVal) (prefixFlag : Bool) : PyVal :=
  .node "UpdateExpression" loc .default
    (baseFields "UpdateExpression" loc ++
      [("operator", .enum operator.value), ("argument", argument),
       ("prefix", .pbool prefixFlag)])

/-- `nodes.BinaryExpression`. -/
def BinaryExpression (loc : Option SourceLocation) (operator : BinaryOperator)
    (left right : PyVal) : PyVal :=
  .node "BinaryExpression" loc .default
    (baseFields "BinaryExpression" loc ++
      [("operator", .enum operator.value), ("left", left), ("right", right)])

/-- `nodes.AssignmentExpression`. -/
def AssignmentExpression (loc : Option SourceLocation)
    (operator : AssignmentOperator) (left right : PyVal) : PyVal :=
  .node "AssignmentExpression" loc .default
    (baseFields "AssignmentExpression" loc ++
      [("operator", .enum operator.value), ("left", left), ("right", right)])

/-- `nodes.LogicalExpression`. -/
def LogicalExpression (loc : Option SourceLocation)
    (operator : LogicalOperator) (left right : PyVal) : PyVal :=
  .node "LogicalExpression" loc .default
    (baseFields "LogicalExpression" loc ++
      [("operator", .enum operator.value), ("left", left), ("right", right)])

/-- `nodes.MemberExpression`. -/
def MemberExpression (loc : Option SourceLocation)
    (memberObject memberProperty : PyVal) (computed : Bool) : PyVal :=
  .node "MemberExpression" loc .default
    (baseFields "MemberExpression" loc ++
      [("object", memberObject), ("property", memberProperty),
       ("computed", .pbool computed)])

/-- `nodes.ConditionalExpression`. -/
def ConditionalExpression (loc : Option SourceLocation)
    (test alternate consequent : PyVal) : PyVal :=
  .node "ConditionalExpression" loc .default
    (baseFields "ConditionalExpression" loc ++
      [("test", test), ("alternate", alternate), ("consequent", consequent)])

/-- `nodes.CallExpression`. -/
def CallExpression (loc : Option SourceLocation) (callee : PyVal)
    (arguments : List PyVal) : PyVal :=
  .node "CallExpression" loc .default
    (baseFields "CallExpression" loc ++
      [("callee", callee), ("arguments", .list arguments)])

/-- `nodes.NewExpression`. -/
def NewExpression (loc : Option SourceLocation) (callee : PyVal)
    (arguments : List PyVal) : PyVal :=
  .node "NewExpression" loc .default
    (baseFields "NewExpression" loc ++
      [("callee", callee), ("arguments", .list arguments)])

/-- `nodes.SequenceExpression`. -/
def SequenceExpression (loc : Option SourceLocation)
    (expressions : List PyVal) : PyVal :=
  .node "SequenceExpression" loc .default
    (baseFields "SequenceExpression" loc ++
      [("expressions", .list expressions)])

/-- `nodes._generate_unary_expression` (all generated nodes are prefix). -/
def generateUnaryExpression (operator : UnaryOperator)
    (loc : Option SourceLocation) (argument : PyVal) : PyVal :=
  UnaryExpression loc operator true argument

/-- `nodes._generate_update_expression`. -/
def generateUpdateExpression (operator : UpdateOperator) (prefixFlag : Bool)
    (loc : Option SourceLocation) (argument : PyVal) : PyVal :=
  UpdateExpression loc operator argument prefixFlag

/-- `nodes._generate_binary_expression`. -/
def generateBinaryExpression (operator : BinaryOperator)
    (loc : Option SourceLocation) (left right : PyVal) : PyVal :=
  BinaryExpression loc operator left right

/-- `nodes._generate_assignment_expression`. -/
def generateAssignmentExpression (operator : AssignmentOperator)
    (loc : Option SourceLocation) (left right : PyVal) : PyVal :=
  AssignmentExpression loc operator left right

/-- `nodes._generate_logical_expression`. -/
def generateLogicalExpression (operator : LogicalOperator)
    (loc : Option SourceLocation) (left right : PyVal) : PyVal :=
  LogicalExpression loc operator left right

def UnaryMinusExpression := generateUnaryExpression .MINUS
def UnaryPlusExpression := generateUnaryExpression .PLUS
def UnaryLogicNotExpression := generateUnaryExpression .NOT_LOGIC
def UnaryBitNotExpression := generateUnaryExpression .NOT_BIT
def TypeofExpression := generateUnaryExpression .TYPEOF
def VoidExpression := generateUnaryExpression .VOID
def DeleteExpression := generateUnaryExpression .DELETE
def PreIncrementExpression := generateUpdateExpression .INCREMENT true
def PostIncrementExpression := generateUpdateExpression .INCREMENT false
def PreDecrementExpression := generateUpdateExpression .DECREMENT true
def PostDecrementExpression := generateUpdateExpression .DECREMENT false
def EqualityExpression := generateBinaryExpression .EQ
def NotEqualityExpression := generateBinaryExpression .NEQ
def IdentityEqualityExpression := generateBinaryExpression .EQ_IDENTITY
def NotIdentityEqualityExpression := generateBinaryExpression .NEQ_IDENTITY
def LowerThanRelationExpression := generateBinaryExpression .LT
def LowerThanEqualRelationExpression := generateBinaryExpression .LTE
def GreaterThanRelationExpression := generateBinaryExpression .GT
def GreaterThanEqualRelationExpression := generateBinaryExpression .GTE
def LeftBitShiftExpression := generateBinaryExpression .SHL
def RightBitShiftExpression := generateBinaryExpression .SHR
def LogicRightBitShiftExpression := generateBinaryExpression .SHR_LOGIC
def AddArithmeticExpression := generateBinaryExpression .ADD
def SubArithmeticExpression := generateBinaryExpression .SUB
def MulArithmeticExpression := generateBinaryExpression .MUL
def DivArithmeticExpression := generateBinaryExpression .DIV
def ModArithmeticExpression := generateBinaryExpression .MOD
def OrBitExpression := generateBinaryExpression .OR
def XorBitExpression := generateBinaryExpression .XOR
def AndBitExpression := generateBinaryExpression .AND
def InExpression := generateBinaryExpression .IN
def InstanceofExpression := generateBinaryExpression .INSTANCEOF
def PowBinaryExpression := generateBinaryExpression .POW
def SimpleAssignExpression := generateAssignmentExpression .ASSIGN
def AddAssignExpression := generateAssignmentExpression .ADD
def SubAssignExpression := generateAssignmentExpression .SUB
def MulAssignExpression := generateAssignmentExpression .MUL

/-- `nodes.ModAssignExpression`: the source instantiates
`_generate_assignment_expression` with `AssignmentOperator.DIV` even though the
docstring says modulo / `%=`. -/
def ModAssignExpression := generateAssignmentExpression .DIV

def ShlAssignExpression := generateAssignmentExpression .SHL
def ShrAssignExpression := generateAssignmentExpression .SHR
def LogicShrAssignExpression := generateAssignmentExpression .SHR_LOGIC
def OrAssignExpression := generateAssignmentExpression .OR
def XorAssignExpression := generateAssignmentExpression .XOR
def AndAssignExpression := generateAssignmentExpression .AND
def PowAssignExpression := generateAssignmentExpression .POW
def OrLogicExpression := generateLogicalExpression .OR
def AndLogicExpression := generateLogicalExpression .AND
def NullishCoalescingLogicExpression :=
  generateLogicalExpression .NULLISH_COALESCING

/-- `nodes.Literal` (no `__str__` override on the base class). -/
def Literal (loc : Option SourceLocation) (value : PyVal) : PyVal :=
  .node "Literal" loc .default
    (baseFields "Literal" loc ++ [("value", value)])

/-- `nodes.BigIntLiteral`. -/
def BigIntLiteral (loc : Option SourceLocation) (value : PyVal)
    (bigint : String) : PyVal :=
  .node "Literal" loc .default
    (baseFields "Literal" loc ++ [("value", value), ("bigint", .str bigint)])

/-- `nodes.NullLiteral` (its `__str__` renders `"null"`). -/
def NullLiteral (loc : Option SourceLocation) : PyVal :=
  .node "Literal" loc .nullLit
    (baseFields "Literal" loc ++ [("value", .pnone)])

/-- `nodes.BooleanLiteral` (its `__str__` renders `str(value).lower()`). -/
def BooleanLiteral (loc : Option SourceLocation) (value : Bool) : PyVal :=
  .node "Literal" loc (.boolLit value)
    (baseFields "Literal" loc ++ [("value", .pbool value)])

/-- `nodes.StringLiteral` (its `__str__` renders the value in quotes). -/
def StringLiteral (loc : Option SourceLocation) (value : String) : PyVal :=
  .node "Literal" loc (.strLit value)
    (baseFields "Literal" loc ++ [("value", .str value)])

/-- `nodes.NumericLiteral`; the float value is kept as its `str()` rendering. -/
def NumericLiteral (loc : Option SourceLocation) (floatRepr : String) : PyVal :=
  .node "Literal" loc .default
    (baseFields "Literal" loc ++ [("value", .num floatRepr)])

/-- `nodes.Property`. -/
def Property (loc : Option SourceLocation) (key value : PyVal) (kind : String)
    (method shorthand computed : Bool) : PyVal :=
  .node "Property" loc .default
    (baseFields "Property" loc ++
      [("key", key), ("value", value), ("kind", .str kind),
       ("method", .pbool method), ("shorthand", .pbool shorthand),
       ("computed", .pbool computed)])

/-- `nodes.AssignmentProperty`. -/
def AssignmentProperty (loc : Option SourceLocation) (key value : PyVal)
    (shorthand computed : Bool) : PyVal :=
  Property loc key value "init" false shorthand computed

/-- `nodes.Pattern`. -/
def Pattern (nodeType : String) (loc : Option SourceLocation) : PyVal :=
  .node nodeType loc .default (baseFields nodeType loc)

/-- `nodes.RestElement`. -/
def RestElement (loc : Option SourceLocation) (argument : PyVal) : PyVal :=
  .node "RestElement" loc .default
    (baseFields "RestElement" loc ++ [("argument", argument)])

/-- `nodes.ObjectPattern`. -/
def ObjectPattern (loc : Option SourceLocation) (properties : List PyVal) :
    PyVal :=
  .node "ObjectPattern" loc .default
    (baseFields "ObjectPattern" loc ++ [("properties", .list properties)])

/-- `nodes.ArrayPattern`. -/
def ArrayPattern (loc : Option SourceLocation) (elements : List PyVal) :
    PyVal :=
  .node "ArrayPattern" loc .default
    (baseFields "ArrayPattern" loc ++ [("elements", .list elements)])

/-- `nodes.AssignmentPattern`. -/
def AssignmentPattern (loc : Option SourceLocation) (left right : PyVal) :
    PyVal :=
  .node "AssignmentPattern" loc .default
    (baseFields "AssignmentPattern" loc ++ [("left", left), ("right", right)])

/-- `nodes.Identifier`. -/
def Identifier (loc : Option SourceLocation) (name : String) : PyVal :=
  .node "Identifier" loc .default
    (baseFields "Identifier" loc ++ [("name", .str name)])

/-- `nodes.MethodDefinition`. -/
def MethodDefinition (loc : Option SourceLocation) (key value : PyVal)
    (kind : String) (computed static : Bool) : PyVal :=
  .node "MethodDefinition" loc .default
    (baseFields "MethodDefinition" loc ++
      [("key", key), ("value", value), ("kind", .str kind),
       ("computed", .pbool computed), ("static", .pbool static)])

/-- `nodes.ClassBody`. -/
def ClassBody (loc : Option SourceLocation) (body : List PyVal) : PyVal :=
  .node "ClassBody" loc .default
    (baseFields "ClassBody" loc ++ [("body", .list body)])

/-- The `_fields.update` performed by `Class.__init__`. -/
def classFields (classId superClass : Option PyVal) (body : PyVal) :
    List (String × PyVal) :=
  [("id", optVal classId), ("superClass", optVal superClass), ("body", body)]

/-- `nodes.Class`. -/
def Class (nodeType : String) (loc : Option SourceLocation)
    (classId superClass : Option PyVal) (body : PyVal) : PyVal :=
  .node nodeType loc .default
    (baseFields nodeType loc ++ classFields classId superClass body)

/-- `nodes.ClassDeclaration`. -/
def ClassDeclaration (loc : Option SourceLocation) (classId : PyVal)
    (superClass : Option PyVal) (body : PyVal) : PyVal :=
  Class "ClassDeclaration" loc (some classId) superClass body

/-- `nodes.ClassExpression`. -/
def ClassExpression (loc : Option SourceLocation)
    (classId superClass : Option PyVal) (body : PyVal) : PyVal :=
  Class "ClassExpression" loc classId superClass body

/-- `nodes.MetaProperty`: the source stores `self.meta = (meta,)`, a
one-element tuple. -/
def MetaProperty (loc : Option SourceLocation) (meta metaProperty : PyVal) :
    PyVal :=
  .node "MetaProperty" loc .default
    (baseFields "MetaProperty" loc ++
      [("meta", .tuple [meta]), ("property", metaProperty)])

/-- `nodes.ModuleDeclaration`. -/
def ModuleDeclaration (nodeType : String) (loc : Option SourceLocation) :
    PyVal :=
  .node nodeType loc .default (baseFields nodeType loc)

/-- `nodes.ModuleSpecifier`. -/
def ModuleSpecifier (nodeType : String) (loc : Option SourceLocation)
    (localName : PyVal) : PyVal :=
  .node nodeType loc .default
    (baseFields nodeType loc ++ [("local", localName)])

/-- `nodes.ImportSpecifier`. -/
def ImportSpecifier (loc : Option SourceLocation) (localName imported : PyVal) :
    PyVal :=
  .node "ImportSpecifier" loc .default
    (baseFields "ImportSpecifier" loc ++
      [("local", localName), ("imported", imported)])

/-- `nodes.ImportDefaultSpecifier`. -/
def ImportDefaultSpecifier (loc : Option SourceLocation) (localName : PyVal) :
    PyVal :=
  ModuleSpecifier "ImportDefaultSpecifier" loc localName

/-- `nodes.ImportNamespaceSpecifier`. -/
def ImportNamespaceSpecifier (loc : Option SourceLocation) (localName : PyVal) :
    PyVal :=
  ModuleSpecifier "ImportNamespaceSpecifier" loc localName

/-- `nodes.ImportDeclaration`. -/
def ImportDeclaration (loc : Option SourceLocation) (specifiers : List PyVal)
    (source : PyVal) : PyVal :=
  .node "ImportDeclaration" loc .default
    (baseFields "ImportDeclaration" loc ++
      [("specifiers", .list specifiers), ("source", source)])

/-- `nodes.ImportExpression`. -/
def ImportExpression (loc : Option SourceLocation) (source : PyVal) : PyVal :=
  .node "ImportExpression" loc .default
    (baseFields "ImportExpression" loc ++ [("source", source)])

/-- `nodes.ExportSpecifier`. -/
def ExportSpecifier (loc : Option SourceLocation) (localName exported : PyVal) :
    PyVal :=
  .node "ExportSpecifier" loc .default
    (baseFields "ExportSpecifier" loc ++
      [("local", localName), ("exported", exported)])

/-- `nodes.ExportNamedDeclaration`. -/
def ExportNamedDeclaration (loc : Option SourceLocation)
    (declaration : Option PyVal) (specifiers : List PyVal)
    (source : Option PyVal) : PyVal :=
  .node "ExportNamedDeclaration" loc .default
    (baseFields "ExportNamedDeclaration" loc ++
      [("declaration", optVal declaration), ("specifiers", .list specifiers),
       ("source", optVal source)])

/-- `nodes.AnonymousDefaultExportedFunctionDeclaration`. -/
def AnonymousDefaultExportedFunctionDeclaration (loc : Option SourceLocation)
    (params : List PyVal) (body : PyVal) : PyVal :=
  Function "FunctionDeclaration" loc Option.none params body

/-- `nodes.AnonymousDefaultExportedClassDeclaration`. -/
def AnonymousDefaultExportedClassDeclaration (loc : Option SourceLocation)
    (superClass : Option PyVal) (body : PyVal) : PyVal :=
  Class "ClassDeclaration" loc Option.none superClass body

/-- `nodes.ExportDefaultDeclaration`. -/
def ExportDefaultDeclaration (loc : Option SourceLocation)
    (declaration : PyVal) : PyVal :=
  .node "ExportDefaultDeclaration" loc .default
    (baseFields "ExportDefaultDeclaration" loc ++
      [("declaration", declaration)])

/-- `nodes.ExportAllDeclaration`. -/
def ExportAllDeclaration (loc : Option SourceLocation) (source : PyVal)
    (exported : Option PyVal) : PyVal :=
  .node "ExportAllDeclaration" loc .default
    (baseFields "ExportAllDeclaration" loc ++
      [("source", source), ("exported", optVal exported)])

end Nodes

/-- The ordered `_fields` mapping of a node object (empty for non-nodes). -/
def fieldsOf : PyVal → List (String × PyVal)
  | .node _ _ _ fs => fs
  | _ => []

/-- One application of a node-type constructor of the node model: one case per
(concrete or instantiable-abstract) class of `nodes.py`, carrying the
constructor arguments; the generated operator specializations appear through
their generating functions, which cover every specialization. -/
inductive NodeCtor where
  | node (nodeType : String) (loc : Option SourceLocation)
  | program (loc : Option SourceLocation) (sourceType : String)
      (body : List PyVal)
  | function (nodeType : String) (loc : Option SourceLocation)
      (functionId : Option PyVal) (params : List PyVal) (body : PyVal)
  | statement (nodeType : String) (loc : Option SourceLocation)
  | emptyStatement (loc : Option SourceLocation)
  | blockStatement (loc : Option SourceLocation) (body : List PyVal)
  | expressionStatement (loc : Option SourceLocation) (expression : PyVal)
  | directive (loc : Option SourceLocation) (expression : PyVal)
      (directiveText : String)
  | functionBody (loc : Option SourceLocation) (body : List PyVal)
  | returnStatement (loc : Option SourceLocation) (argument : Option PyVal)
  | breakStatement (loc : Option SourceLocation) (label : Option PyVal)
  | continueStatement (loc : Option SourceLocation) (label : Option PyVal)
  | ifStatement (loc : Option SourceLocation) (test consequent : PyVal)
      (alternate : Option PyVal)
  | whileStatement (loc : Option SourceLocation) (test body : PyVal)
  | doWhileStatement (loc : Option SourceLocation) (body test : PyVal)
  | forStatement (loc : Option SourceLocation)
      (init test update : Option PyVal) (body : PyVal)
  | forInStatement (loc : Option SourceLocation) (left right body : PyVal)
  | declaration (nodeType : String) (loc : Option SourceLocation)
  | functionDeclaration (loc : Option SourceLocation) (functionId : PyVal)
      (params : List PyVal) (body : PyVal)
  | variableDeclarator (loc : Option SourceLocation) (varId : PyVal)
      (init : Option PyVal)
  | variableDeclaration (loc : Option SourceLocation) (kind : String)
      (declarations : List PyVal)
  | expression (nodeType : String) (loc : Option SourceLocation)
  | superNode (loc : Option SourceLocation)
  | spreadElement (loc : Option SourceLocation) (argument : PyVal)
  | thisExpression (loc : Option SourceLocation)
  | arrayExpression (loc : Option SourceLocation) (elements : List PyVal)
  | objectExpression (loc : Option SourceLocation) (properties : List PyVal)
  | functionExpression (loc : Option SourceLocation)
      (functionId : Option PyVal) (params : List PyVal) (body : PyVal)
  | arrowFunctionExpression (loc : Option SourceLocation)
      (params : List PyVal) (body : PyVal) (expression : Bool)
  | unaryExpression (loc : Option SourceLocation) (operator : UnaryOperator)
      (prefixFlag : Bool) (argument : PyVal)
  | updateExpression (loc : Option SourceLocation) (operator : UpdateOperator)
      (argument : PyVal) (prefixFlag : Bool)
  | binaryExpression (loc : Option SourceLocation) (operator : BinaryOperator)
      (left right : PyVal)
  | assignmentExpression (loc : Option SourceLocation)
      (operator : AssignmentOperator) (left right : PyVal)
  | logicalExpression (loc : Option SourceLocation)
      (operator : LogicalOperator) (left right : PyVal)
  | memberExpression (loc : Option SourceLocation)
      (memberObject memberProperty : PyVal) (computed : Bool)
  | conditionalExpression (loc : Option SourceLocation)
      (test alternate consequent : PyVal)
  | callExpression (loc : Option SourceLocation) (callee : PyVal)
      (arguments : List PyVal)
  | newExpression (loc : Option SourceLocation) (callee : PyVal)
      (arguments : List PyVal)
  | sequenceExpression (loc : Option SourceLocation)
      (expressions : List PyVal)
  | generatedUnary (operator : UnaryOperator) (loc : Option SourceLocation)
      (argument : PyVal)
  | generatedUpdate (operator : UpdateOperator) (prefixFlag : Bool)
      (loc : Option SourceLocation) (argument : PyVal)
  | generatedBinary (operator : BinaryOperator) (loc : Option SourceLocation)
      (left right : PyVal)
  | generatedAssignment (operator : AssignmentOperator)
      (loc : Option SourceLocation) (left right : PyVal)
  | generatedLogical (operator : LogicalOperator)
      (loc : Option SourceLocation) (left right : PyVal)
  | literal (loc : Option SourceLocation) (value : PyVal)
  | bigIntLiteral (loc : Option SourceLocation) (value : PyVal)
      (bigint : String)
  | nullLiteral (loc : Option SourceLocation)
  | booleanLiteral (loc : Option SourceLocation) (value : Bool)
  | stringLiteral (loc : Option SourceLocation) (value : String)
  | numericLiteral (loc : Option SourceLocation) (floatRepr : String)
  | property (loc : Option SourceLocation) (key value : PyVal) (kind : String)
      (method shorthand computed : Bool)
  | assignmentProperty (loc : Option SourceLocation) (key value : PyVal)
      (shorthand computed : Bool)
  | pattern (nodeType : String) (loc : Option SourceLocation)
  | restElement (loc : Option SourceLocation) (argument : PyVal)
  | objectPattern (loc : Option SourceLocation) (properties : List PyVal)
  | arrayPattern (loc : Option SourceLocation) (elements : List PyVal)
  | assignmentPattern (loc : Option SourceLocation) (left right : PyVal)
  | identifier (loc : Option SourceLocation) (name : String)
  | methodDefinition (loc : Option SourceLocation) (key value : PyVal)
      (kind : String) (computed static : Bool)
  | classBody (loc : Option SourceLocation) (body : List PyVal)
  | classNode (nodeType : String) (loc : Option SourceLocation)
      (classId superClass : Option PyVal) (body : PyVal)
  | classDeclaration (loc : Option SourceLocation) (classId : PyVal)
      (superClass : Option PyVal) (body : PyVal)
  | classExpression (loc : Option SourceLocation)
      (classId superClass : Option PyVal) (body : PyVal)
  | metaProperty (loc : Option SourceLocation) (meta metaProperty : PyVal)
  | moduleDeclaration (nodeType : String) (loc : Option SourceLocation)
  | moduleSpecifier (nodeType : String) (loc : Option SourceLocation)
      (localName : PyVal)
  | importSpecifier (loc : Option SourceLocation) (localName imported : PyVal)
  | importDefaultSpecifier (loc : Option SourceLocation) (localName : PyVal)
  | importNamespaceSpecifier (loc : Option SourceLocation) (localName : PyVal)
  | importDeclaration (loc : Option SourceLocation) (specifiers : List PyVal)
      (source : PyVal)
  | importExpression (loc : Option SourceLocation) (source : PyVal)
  | exportSpecifier (loc : Option SourceLocation) (localName exported : PyVal)
  | exportNamedDeclaration (loc : Option SourceLocation)
      (declaration : Option PyVal) (specifiers : List PyVal)
      (source : Option PyVal)
  | anonymousDefaultExportedFunctionDeclaration (loc : Option SourceLocation)
      (params : List PyVal) (body : PyVal)
  | anonymousDefaultExportedClassDeclaration (loc : Option SourceLocation)
      (superClass : Option PyVal) (body : PyVal)
  | exportDefaultDeclaration (loc : Option SourceLocation)
      (declaration : PyVal)
  | exportAllDeclaration (loc : Option SourceLocation) (source : PyVal)
      (exported : Option PyVal)

/-- Runs the node-type constructor a `NodeCtor` describes. -/
def applyCtor : NodeCtor → PyVal
  | .node t loc => Nodes.Node t loc
  | .program loc st body => Nodes.Program loc st body
  | .function t loc fid ps body => Nodes.Function t loc fid ps body
  | .statement t loc => Nodes.Statement t loc
  | .emptyStatement loc => Nodes.EmptyStatement loc
  | .blockStatement loc body => Nodes.BlockStatement loc body
  | .expressionStatement loc e => Nodes.ExpressionStatement loc e
  | .directive loc e d => Nodes.Directive loc e d
  | .functionBody loc body => Nodes.FunctionBody loc body
  | .returnStatement loc a => Nodes.ReturnStatement loc a
  | .breakStatement loc l => Nodes.BreakStatement loc l
  | .continueStatement loc l => Nodes.ContinueStatement loc l
  | .ifStatement loc t c a => Nodes.IfStatement loc t c a
  | .whileStatement loc t b => Nodes.WhileStatement loc t b
  | .doWhileStatement loc b t => Nodes.DoWhileStatement loc b t
  | .forStatement loc i t u b => Nodes.ForStatement loc i t u b
  | .forInStatement loc l r b => Nodes.ForInStatement loc l r b
  | .declaration t loc => Nodes.Declaration t loc
  | .functionDeclaration loc fid ps body =>
      Nodes.FunctionDeclaration loc fid ps body
  | .variableDeclarator loc v i => Nodes.VariableDeclarator loc v i
  | .variableDeclaration loc k ds => Nodes.VariableDeclaration loc k ds
  | .expression t loc => Nodes.Expression t loc
  | .superNode loc => Nodes.Super loc
  | .spreadElement loc a => Nodes.SpreadElement loc a
  | .thisExpression loc => Nodes.ThisExpression loc
  | .arrayExpression loc es => Nodes.ArrayExpression loc es
  | .objectExpression loc ps => Nodes.ObjectExpression loc ps
  | .functionExpression loc fid ps body =>
      Nodes.FunctionExpression loc fid ps body
  | .arrowFunctionExpression loc ps body e =>
      Nodes.ArrowFunctionExpression loc ps body e
  | .unaryExpression loc op p a => Nodes.UnaryExpression loc op p a
  | .updateExpression loc op a p => Nodes.UpdateExpression loc op a p
  | .binaryExpression loc op l r => Nodes.BinaryExpression loc op l r
  | .assignmentExpression loc op l r => Nodes.AssignmentExpression loc op l r
  | .logicalExpression loc op l r => Nodes.LogicalExpression loc op l r
  | .memberExpression loc o p c => Nodes.MemberExpression loc o p c
  | .conditionalExpression loc t a c =>
      Nodes.ConditionalExpression loc t a c
  | .callExpression loc c args => Nodes.CallExpression loc c args
  | .newExpression loc c args => Nodes.NewExpression loc c args
  | .sequenceExpression loc es => Nodes.SequenceExpression loc es
  | .generatedUnary op loc a => Nodes.generateUnaryExpression op loc a
  | .generatedUpdate op p loc a => Nodes.generateUpdateExpression op p loc a
  | .generatedBinary op loc l r => Nodes.generateBinaryExpression op loc l r
  | .generatedAssignment op loc l r =>
      Nodes.generateAssignmentExpression op loc l r
  | .generatedLogical op loc l r => Nodes.generateLogicalExpression op loc l r
  | .literal loc v => Nodes.Literal loc v
  | .bigIntLiteral loc v b => Nodes.BigIntLiteral loc v b
  | .nullLiteral loc => Nodes.NullLiteral loc
  | .booleanLiteral loc v => Nodes.BooleanLiteral loc v
  | .stringLiteral loc v => Nodes.StringLiteral loc v
  | .numericLiteral loc v => Nodes.NumericLiteral loc v
  | .property loc k v kd m s c => Nodes.Property loc k v kd m s c
  | .assignmentProperty loc k v s c => Nodes.AssignmentProperty loc k v s c
  | .pattern t loc => Nodes.Pattern t loc
  | .restElement loc a => Nodes.RestElement loc a
  | .objectPattern loc ps => Nodes.ObjectPattern loc ps
  | .arrayPattern loc es => Nodes.ArrayPattern loc es
  | .assignmentPattern loc l r => Nodes.AssignmentPattern loc l r
  | .identifier loc n => Nodes.Identifier loc n
  | .methodDefinition loc k v kd c s => Nodes.MethodDefinition loc k v kd c s
  | .classBody loc body => Nodes.ClassBody loc body
  | .classNode t loc cid sc body => Nodes.Class t loc cid sc body
  | .classDeclaration loc cid sc body =>
      Nodes.ClassDeclaration loc cid sc body
  | .classExpression loc cid sc body => Nodes.ClassExpression loc cid sc body
  | .metaProperty loc m p => Nodes.MetaProperty loc m p
  | .moduleDeclaration t loc => Nodes.ModuleDeclaration t loc
  | .moduleSpecifier t loc l => Nodes.ModuleSpecifier t loc l
  | .importSpecifier loc l i => Nodes.ImportSpecifier loc l i
  | .importDefaultSpecifier loc l => Nodes.ImportDefaultSpecifier loc l
  | .importNamespaceSpecifier loc l => Nodes.ImportNamespaceSpecifier loc l
  | .importDeclaration loc ss src => Nodes.ImportDeclaration loc ss src
  | .importExpression loc src => Nodes.ImportExpression loc src
  | .exportSpecifier loc l e => Nodes.ExportSpecifier loc l e
  | .exportNamedDeclaration loc d ss src =>
      Nodes.ExportNamedDeclaration loc d ss src
  | .anonymousDefaultExportedFunctionDeclaration loc ps body =>
      Nodes.AnonymousDefaultExportedFunctionDeclaration loc ps body
  | .anonymousDefaultExportedClassDeclaration loc sc body =>
      Nodes.AnonymousDefaultExportedClassDeclaration loc sc body
  | .exportDefaultDeclaration loc d => Nodes.ExportDefaultDeclaration loc d
  | .exportAllDeclaration loc src e => Nodes.ExportAllDeclaration loc src e

/-- The subtype-specific field names of each node-type constructor, in their
fixed declaration (`_fields.update`) order. -/
def declaredFields : NodeCtor → List String
  | .node _ _ => []
  | .program _ _ _ => ["sourceType", "body"]
  | .function _ _ _ _ _ => ["id", "params", "body"]
  | .statement _ _ => []
  | .emptyStatement _ => []
  | .blockStatement _ _ => ["body"]
  | .expressionStatement _ _ => ["expression"]
  | .directive _ _ _ => ["expression", "directive"]
  | .functionBody _ _ => ["body"]
  | .returnStatement _ _ => ["argument"]
  | .breakStatement _ _ => ["label"]
  | .continueStatement _ _ => ["label"]
  | .ifStatement _ _ _ _ => ["test", "consequent", "alternate"]
  | .whileStatement _ _ _ => ["test", "body"]
  | .doWhileStatement _ _ _ => ["body", "test"]
  | .forStatement _ _ _ _ _ => ["init", "test", "update", "body"]
  | .forInStatement _ _ _ _ => ["left", "right", "body"]
  | .declaration _ _ => []
  | .functionDeclaration _ _ _ _ => ["id", "params", "body"]
  | .variableDeclarator _ _ _ => ["id", "init"]
  | .variableDeclaration _ _ _ => ["kind", "declarations"]
  | .expression _ _ => []
  | .superNode _ => []
  | .spreadElement _ _ => ["argument"]
  | .thisExpression _ => []
  | .arrayExpression _ _ => ["elements"]
  | .objectExpression _ _ => ["properties"]
  | .functionExpression _ _ _ _ => ["id", "params", "body"]
  | .arrowFunctionExpression _ _ _ _ => ["id", "params", "body", "expression"]
  | .unaryExpression _ _ _ _ => ["operator", "prefix", "argument"]
  | .updateExpression _ _ _ _ => ["operator", "argument", "prefix"]
  | .binaryExpression _ _ _ _ => ["operator", "left", "right"]
  | .assignmentExpression _ _ _ _ => ["operator", "left", "right"]
  | .logicalExpression _ _ _ _ => ["operator", "left", "right"]
  | .memberExpression _ _ _ _ => ["object", "property", "computed"]
  | .conditionalExpression _ _ _ _ => ["test", "alternate", "consequent"]
  | .callExpression _ _ _ => ["callee", "arguments"]
  | .newExpression _ _ _ => ["callee", "arguments"]
  | .sequenceExpression _ _ => ["expressions"]
  | .generatedUnary _ _ _ => ["operator", "prefix", "argument"]
  | .generatedUpdate _ _ _ _ => ["operator", "argument", "prefix"]
  | .generatedBinary _ _ _ _ => ["operator", "left", "right"]
  | .generatedAssignment _ _ _ _ => ["operator", "left", "right"]
  | .generatedLogical _ _ _ _ => ["operator", "left", "right"]
  | .literal _ _ => ["value"]
  | .bigIntLiteral _ _ _ => ["value", "bigint"]
  | .nullLiteral _ => ["value"]
  | .booleanLiteral _ _ => ["value"]
  | .stringLiteral _ _ => ["value"]
  | .numericLiteral _ _ => ["value"]
  | .property _ _ _ _ _ _ _ =>
      ["key", "value", "kind", "method", "shorthand", "computed"]
  | .assignmentProperty _ _ _ _ _ =>
      ["key", "value", "kind", "method", "shorthand", "computed"]
  | .pattern _ _ => []
  | .restElement _ _ => ["argument"]
  | .objectPattern _ _ => ["properties"]
  | .arrayPattern _ _ => ["elements"]
  | .assignmentPattern _ _ _ => ["left", "right"]
  | .identifier _ _ => ["name"]
  | .methodDefinition _ _ _ _ _ _ =>
      ["key", "value", "kind", "computed", "static"]
  | .classBody _ _ => ["body"]
  | .classNode _ _ _ _ _ => ["id", "superClass", "body"]
  | .classDeclaration _ _ _ _ => ["id", "superClass", "body"]
  | .classExpression _ _ _ _ => ["id", "superClass", "body"]
  | .metaProperty _ _ _ => ["meta", "property"]
  | .moduleDeclaration _ _ => []
  | .moduleSpecifier _ _ _ => ["local"]
  | .importSpecifier _ _ _ => ["local", "imported"]
  | .importDefaultSpecifier _ _ => ["local"]
  | .importNamespaceSpecifier _ _ => ["local"]
  | .importDeclaration _ _ _ => ["specifiers", "source"]
  | .importExpression _ _ => ["source"]
  | .exportSpecifier _ _ _ => ["local", "exported"]
  | .exportNamedDeclaration _ _ _ _ =>
      ["declaration", "specifiers", "source"]
  | .anonymousDefaultExportedFunctionDeclaration _ _ _ =>
      ["id", "params", "body"]
  | .anonymousDefaultExportedClassDeclaration _ _ _ =>
      ["id", "superClass", "body"]
  | .exportDefaultDeclaration _ _ => ["declaration"]
  | .exportAllDeclaration _ _ _ => ["source", "exported"]

/-! ### The pretty printer `to_ascii_tree` -/

mutual

/-- Size measure for `PyVal` used for the printer's termination. -/
def pvSize : PyVal → Nat
  | .node _ _ _ fs => 1 + pvFieldsSize fs
  | .list xs => 1 + pvItemsSize xs
  | .locv _ => 5
  | .str _ => 1
  | .pbool _ => 1
  | .pnone => 1
  | .num _ => 1
  | .int _ => 1
  | .enum _ => 1
  | .pos _ => 1
  | .tuple _ => 1

def pvFieldsSize : List (String × PyVal) → Nat
  | [] => 0
  | (_, v) :: rest => 1 + pvSize v + pvFieldsSize rest

def pvItemsSize : List PyVal → Nat
  | [] => 0
  | v :: rest => 1 + pvSize v + pvItemsSize rest

end

/-- Python's `str(tuple)` renders its elements with the default object `repr`,
which embeds a memory address and therefore has no shallow embedding.  Tuples
only arise as the `meta` field of `MetaProperty`; no claim observes this
string, and the printer theorems below exclude trees containing tuples. -/
def pyTupleStr (_ : List PyVal) : String := "(...)"

/-- The `value` rendered for a node's own line: `str(node)`, except that for
enumeration members the printer substitutes `str(node.value)` and for lists it
uses the empty string. -/
def valueStr : PyVal → String
  | .str s => s
  | .pbool b => if b then "True" else "False"
  | .pnone => "None"
  | .num r => r
  | .int i => intStr i
  | .enum v => v
  | .pos p => Position.str p
  | .locv l => SourceLocation.str l
  | .node tag loc sk _ =>
      match sk with
      | .default =>
          tag ++ " at " ++
            (match loc with
             | Option.none => "None"
             | some l => SourceLocation.str l)
      | .nullLit => "null"
      | .boolLit b => if b then "true" else "false"
      | .strLit s => "\"" ++ s ++ "\""
  | .list _ => ""
  | .tuple xs => pyTupleStr xs

/-- Python's `enumerate` over a list, with the indices already rendered as the
printer's `f"{child_name}:"` will use them. -/
def enumerateKeys (i : Nat) : List PyVal → List (String × PyVal)
  | [] => []
  | v :: rest => (natStr i, v) :: enumerateKeys (i + 1) rest

/-- The labeled children the printer walks: list elements with their indices,
a node's ordered `_fields`, and `SourceLocation.fields` (`start`/`end`).
`Position`, strings, enums and the other scalars expose no `fields`. -/
def childrenOf : PyVal → Option (List (String × PyVal))
  | .list xs => some (enumerateKeys 0 xs)
  | .node _ _ _ fs => some fs
  | .locv l => some [("start", .pos l.start), ("end", .pos l.endPos)]
  | .str _ => Option.none
  | .pbool _ => Option.none
  | .pnone => Option.none
  | .num _ => Option.none
  | .int _ => Option.none
  | .enum _ => Option.none
  | .pos _ => Option.none
  | .tuple _ => Option.none

/-- Python's `s * n` for a string and a non-negative count. -/
def strRepeatNat (s : String) : Nat → String
  | 0 => ""
  | n + 1 => s ++ strRepeatNat s n

/-- Python's `s * k`; a negative count yields the empty string. -/
def strRepeat (s : String) (k : Int) : String := strRepeatNat s k.toNat

/-- `SUBENTRY_PREFIX`: fork, two horizontals, one space. -/
def subentryMarker : String := "+-- "

/-- `NESTED_PREFIX`: vertical plus three spaces. -/
def nestedMarker : String := "|   "

mutual

/-- `to_ascii_tree` from `ast/__init__.py`. -/
def toAsciiTree (nodeV : PyVal) (namePfx : String) (nestingLvl : Int)
    (astFormat : String) : Except PyError String :=
  if nestingLvl < 0 then .error (.valueError "Nesting level can't be below 0")
  else
    let blacklist : List String :=
      if astFormat = "short" then ["loc", "type"] else []
    let value := valueStr nodeV
    let line :=
      strRepeat nestedMarker (nestingLvl - 1) ++
        (if 0 < nestingLvl then subentryMarker else "") ++
        (namePfx ++ (if value ≠ "" ∧ namePfx ≠ "" then " " else "")) ++
        value ++ "\n"
    match nodeV with
    | .list xs => do
        let rest ←
          renderChildren (enumerateKeys 0 xs) blacklist nestingLvl astFormat
        pure (line ++ rest)
    | .node _ _ _ fs => do
        let rest ← renderChildren fs blacklist nestingLvl astFormat
        pure (line ++ rest)
    | .locv l => do
        let rest ←
          renderChildren [("start", .pos l.start), ("end", .pos l.endPos)]
            blacklist nestingLvl astFormat
        pure (line ++ rest)
    | _ => .ok line
  termination_by pvSize nodeV
  decreasing_by
    all_goals
      have henum : ∀ (i : Nat) (ys : List PyVal),
          pvFieldsSize (enumerateKeys i ys) = pvItemsSize ys := by
        intro i ys
        induction ys generalizing i with
        | nil => simp [enumerateKeys, pvFieldsSize, pvItemsSize]
        | cons y ys ih => simp [enumerateKeys, pvFieldsSize, pvItemsSize, ih]
      simp [pvSize, pvFieldsSize, henum]

/-- The printer's loop over labeled children, skipping blacklisted names. -/
def renderChildren (cs : List (String × PyVal)) (blacklist : List String)
    (nestingLvl : Int) (astFormat : String) : Except PyError String :=
  match cs with
  | [] => pure ""
  | (k, v) :: rest => do
      let head ←
        if k ∈ blacklist then pure ""
        else toAsciiTree v (k ++ ":") (nestingLvl + 1) astFormat
      let tail ← renderChildren rest blacklist nestingLvl astFormat
      pure (head ++ tail)
  termination_by pvFieldsSize cs
  decreasing_by
    all_goals simp [pvFieldsSize] <;> omega

end

/-! ### The ANTLR parse-tree contract consumed by the listeners -/

/-- A token as the listeners observe it: a 1-based line and a 0-based column
(both Python ints). -/
structure Token where
  line : Int
  column : Int
  deriving DecidableEq, Repr

/-- The token range of a parser rule context (`ctx.start` / `ctx.stop`). -/
structure Ctx where
  startTok : Token
  stopTok : Token
  deriving DecidableEq, Repr

/-- `_get_source_location`: the start/end `Position`s of a context; the end
column is shifted by one unless it is 0 (the end lies on a newline). -/
def getSourceLocation (ctx : Ctx) (source : Option String) :
    Except PyError SourceLocation := do
  let startPos ← Position.init ctx.startTok.line ctx.startTok.column
  let endPos ← Position.init ctx.stopTok.line ctx.stopTok.column
  let endPos :=
    if endPos.column ≠ 0 then { endPos with column := endPos.column + 1 }
    else endPos
  pure ⟨source, startPos, endPos⟩

/-- Which token accessor of the `assignmentOperator` rule context is non-null
(exactly one is, for a well-formed parse). -/
inductive AssignOpTok where
  | multiplyAssign | divideAssign | modulusAssign | plusAssign | minusAssign
  | leftShiftArithmeticAssign | rightShiftArithmeticAssign
  | rightShiftLogicalAssign | bitAndAssign | bitXorAssign | bitOrAssign
  | powerAssign
  deriving DecidableEq, Repr

/-- `AssignmentOperatorListener.enterAssignmentOperator`: the ordered
first-non-null token lookup binding each token to its operator. -/
def assignOpLookup : AssignOpTok → AssignmentOperator
  | .multiplyAssign => .MUL
  | .divideAssign => .DIV
  | .modulusAssign => .MOD
  | .plusAssign => .ADD
  | .minusAssign => .SUB
  | .leftShiftArithmeticAssign => .SHL
  | .rightShiftArithmeticAssign => .SHR
  | .rightShiftLogicalAssign => .SHR_LOGIC
  | .bitAndAssign => .AND
  | .bitXorAssign => .XOR
  | .bitOrAssign => .OR
  | .powerAssign => .POW

/-- The non-null token of a `MultiplicativeExpression` context. -/
inductive MulOpTok where
  | multiply | divide | modulus
  deriving DecidableEq, Repr

/-- The non-null token of an `AdditiveExpression` context. -/
inductive AddOpTok where
  | plus | minus
  deriving DecidableEq, Repr

/-- The non-null token of a `BitShiftExpression` context. -/
inductive ShiftOpTok where
  | leftShiftArithmetic | rightShiftArithmetic | rightShiftLogical
  deriving DecidableEq, Repr

/-- The non-null token of a `RelationalExpression` context. -/
inductive RelOpTok where
  | lessThan | lessThanEquals | moreThan | greaterThanEquals
  deriving DecidableEq, Repr

/-- The non-null token of an `EqualityExpression` context. -/
inductive EqOpTok where
  | equalsTok | notEquals | identityEquals | identityNotEquals
  deriving DecidableEq, Repr

/-- A `NumericLiteral` rule context; `decimalText` is
`DecimalLiteral().getText()` when that token matched, absent otherwise. -/
structure NumericLitCtx where
  ctx : Ctx
  decimalText : Option String
  deriving DecidableEq, Repr

/-- Which alternative a `literal` rule context matched. -/
inductive LiteralAlt where
  | nullLit
  | boolLit (text : String)
  | strLit (text : String)
  | numericLit (inner : NumericLitCtx)
  | bigintLit
  deriving DecidableEq, Repr

/-- A `literal` rule context. -/
structure LiteralCtx where
  ctx : Ctx
  alt : LiteralAlt
  deriving DecidableEq, Repr

/-- An `identifier` rule context with its `getText()`. -/
structure IdentifierCtx where
  ctx : Ctx
  text : String
  deriving DecidableEq, Repr

mutual

/-- A `singleExpression` parse-tree node, one constructor per grammar
alternative the `ExpressionListener` dispatches on. -/
inductive SingleExprCtx where
  | literalExpr (r : Ctx) (lit : LiteralCtx)
  | thisExpr (r : Ctx)
  | identifierExpr (r : Ctx) (idCtx : IdentifierCtx)
  | superExpr (r : Ctx)
  | arrayLiteralExpr (r : Ctx) (arr : ArrayLitCtx)
  | objectLiteralExpr (r : Ctx)
  | postIncExpr (r : Ctx) (arg : SingleExprCtx)
  | postDecExpr (r : Ctx) (arg : SingleExprCtx)
  | deleteExpr (r : Ctx) (arg : SingleExprCtx)
  | voidExpr (r : Ctx) (arg : SingleExprCtx)
  | typeofExpr (r : Ctx) (arg : SingleExprCtx)
  | preIncExpr (r : Ctx) (arg : SingleExprCtx)
  | preDecExpr (r : Ctx) (arg : SingleExprCtx)
  | unaryPlusExpr (r : Ctx) (arg : SingleExprCtx)
  | unaryMinusExpr (r : Ctx) (arg : SingleExprCtx)
  | bitNotExpr (r : Ctx) (arg : SingleExprCtx)
  | notExpr (r : Ctx) (arg : SingleExprCtx)
  | powerExpr (r : Ctx) (lhs rhs : SingleExprCtx)
  | multiplicativeExpr (r : Ctx) (op : MulOpTok) (lhs rhs : SingleExprCtx)
  | additiveExpr (r : Ctx) (op : AddOpTok) (lhs rhs : SingleExprCtx)
  | coalesceExpr (r : Ctx)
  | bitShiftExpr (r : Ctx) (op : ShiftOpTok) (lhs rhs : SingleExprCtx)
  | relationalExpr (r : Ctx) (op : RelOpTok) (lhs rhs : SingleExprCtx)
  | inExpr (r : Ctx)
  | equalityExpr (r : Ctx) (op : EqOpTok) (lhs rhs : SingleExprCtx)
  | bitAndExpr (r : Ctx)
  | bitOrExpr (r : Ctx)
  | bitXOrExpr (r : Ctx)
  | logicalAndExpr (r : Ctx)
  | logicalOrExpr (r : Ctx)
  | ternaryExpr (r : Ctx)
  | assignmentExpr (r : Ctx) (lhs rhs : SingleExprCtx)
  | assignmentOperatorExpr (r : Ctx) (op : AssignOpTok)
      (lhs rhs : SingleExprCtx)
  | importExpr (r : Ctx)
  | functionExpr (r : Ctx)
  | classExpr (r : Ctx)
  | memberIndexExpr (r : Ctx)
  | memberDotExpr (r : Ctx)
  | argumentsExpr (r : Ctx)
  | newExpr (r : Ctx)
  | metaExpr (r : Ctx)
  | parenthesizedExpr (r : Ctx) (seq : ExprSeqCtx)

/-- An `expressionSequence` rule context: its comma-separated
`singleExpression` children. -/
inductive ExprSeqCtx where
  | mk (r : Ctx) (exprs : List SingleExprCtx)

/-- An `arrayLiteral` rule context; `elementList` is absent for `[]`. -/
inductive ArrayLitCtx where
  | mk (r : Ctx) (elementList : Option (List ArrayElemCtx))

/-- An `arrayElement` rule context: an optional `...` plus an expression. -/
inductive ArrayElemCtx where
  | mk (r : Ctx) (hasEllipsis : Bool) (expr : SingleExprCtx)

end

/-- Python's `text[1:-1]`, used to strip the quotes of a string literal. -/
def stripQuotes (s : String) : String := ⟨(s.data.drop 1).dropLast⟩

/-- The float parsed by `float(text)`, represented by its source text.  No
claim observes the float's numeric value or its printed form, so the 64-bit
conversion itself is left abstract. -/
def pyFloat (text : String) : String := text

/-- `LiteralListener` (`enterLiteral` / `enterNumericLiteral` /
`enterBigintLiteral`). -/
def LiteralListener.build (lit : LiteralCtx) : Except PyError PyVal := do
  let loc ← getSourceLocation lit.ctx Option.none
  match lit.alt with
  | .nullLit => pure (Nodes.NullLiteral (some loc))
  | .boolLit text => pure (Nodes.BooleanLiteral (some loc) (text = "true"))
  | .strLit text => pure (Nodes.StringLiteral (some loc) (stripQuotes text))
  | .numericLit inner => do
      let loc2 ← getSourceLocation inner.ctx Option.none
      match inner.decimalText with
      | Option.none => .error .attributeError
      | some text => pure (Nodes.NumericLiteral (some loc2) (pyFloat text))
  | .bigintLit => .error (.notImplementedError "Bigint literals")

/-- `enterIdentifier` (shared by `ExpressionListener` and
`AssignableListener`). -/
def buildIdentifier (idCtx : IdentifierCtx) : Except PyError PyVal := do
  let loc ← getSourceLocation idCtx.ctx Option.none
  pure (Nodes.Identifier (some loc) idCtx.text)

mutual

/-- `ExpressionListener`: the dispatcher over `singleExpression`
alternatives. -/
def ExpressionListener.build : SingleExprCtx → Except PyError PyVal
  | .literalExpr _ lit => LiteralListener.build lit
  | .thisExpr r => do
      let loc ← getSourceLocation r Option.none
      pure (Nodes.ThisExpression (some loc))
  | .identifierExpr _ idCtx => buildIdentifier idCtx
  | .superExpr r => do
      let loc ← getSourceLocation r Option.none
      pure (Nodes.Super (some loc))
  | .arrayLiteralExpr r arr => do
      let exprs ← ArrayLiteralExpandListener.build arr
      let loc ← getSourceLocation r Option.none
      pure (Nodes.ArrayExpression (some loc) exprs)
  | .objectLiteralExpr _ => .error (.notImplementedError "ObjectLiteralExpression")
  | .postIncExpr r arg => do
      let a ← ExpressionListener.build arg
      let loc ← getSourceLocation r Option.none
      pure (Nodes.PostIncrementExpression (some loc) a)
  | .postDecExpr r arg => do
      let a ← ExpressionListener.build arg
      let loc ← getSourceLocation r Option.none
      pure (Nodes.PostDecrementExpression (some loc) a)
  | .deleteExpr r arg => do
      let a ← ExpressionListener.build arg
      let loc ← getSourceLocation r Option.none
      pure (Nodes.DeleteExpression (some loc) a)
  | .voidExpr r arg => do
      let a ← ExpressionListener.build arg
      let loc ← getSourceLocation r Option.none
      pure (Nodes.VoidExpression (some loc) a)
  | .typeofExpr r arg => do
      let a ← ExpressionListener.build arg
      let loc ← getSourceLocation r Option.none
      pure (Nodes.TypeofExpression (some loc) a)
  | .preIncExpr r arg => do
      let a ← ExpressionListener.build arg
      let loc ← getSourceLocation r Option.none
      pure (Nodes.PreIncrementExpression (some loc) a)
  | .preDecExpr r arg => do
      let a ← ExpressionListener.build arg
      let loc ← getSourceLocation r Option.none
      pure (Nodes.PreDecrementExpression (some loc) a)
  | .unaryPlusExpr r arg => do
      let a ← ExpressionListener.build arg
      let loc ← getSourceLocation r Option.none
      pure (Nodes.UnaryPlusExpression (some loc) a)
  | .unaryMinusExpr r arg => do
      let a ← ExpressionListener.build arg
      let loc ← getSourceLocation r Option.none
      pure (Nodes.UnaryMinusExpression (some loc) a)
  | .bitNotExpr r arg => do
      let a ← ExpressionListener.build arg
      let loc ← getSourceLocation r Option.none
      pure (Nodes.UnaryBitNotExpression (some loc) a)
  | .notExpr r arg => do
      let a ← ExpressionListener.build arg
      let loc ← getSourceLocation r Option.none
      pure (Nodes.UnaryLogicNotExpression (some loc) a)
  | .powerExpr r lhs rhs => do
      let l ← ExpressionListener.build lhs
      let rv ← ExpressionListener.build rhs
      let loc ← getSourceLocation r Option.none
      pure (Nodes.PowBinaryExpression (some loc) l rv)
  | .multiplicativeExpr r op lhs rhs => do
      let l ← ExpressionListener.build lhs
      let rv ← ExpressionListener.build rhs
      let loc ← getSourceLocation r Option.none
      pure
        (match op with
         | .multiply => Nodes.MulArithmeticExpression (some loc) l rv
         | .divide => Nodes.DivArithmeticExpression (some loc) l rv
         | .modulus => Nodes.ModArithmeticExpression (some loc) l rv)
  | .additiveExpr r op lhs rhs => do
      let l ← ExpressionListener.build lhs
      let rv ← ExpressionListener.build rhs
      let loc ← getSourceLocation r Option.none
      pure
        (match op with
         | .plus => Nodes.AddArithmeticExpression (some loc) l rv
         | .minus => Nodes.SubArithmeticExpression (some loc) l rv)
  | .coalesceExpr _ => .error (.notImplementedError "CoalesceExpression")
  | .bitShiftExpr r op lhs rhs => do
      let l ← ExpressionListener.build lhs
      let rv ← ExpressionListener.build rhs
      let loc ← getSourceLocation r Option.none
      pure
        (match op with
         | .leftShiftArithmetic => Nodes.LeftBitShiftExpression (some loc) l rv
         | .rightShiftArithmetic =>
             Nodes.RightBitShiftExpression (some loc) l rv
         | .rightShiftLogical =>
             Nodes.LogicRightBitShiftExpression (some loc) l rv)
  | .relationalExpr r op lhs rhs => do
      let l ← ExpressionListener.build lhs
      let rv ← ExpressionListener.build rhs
      let loc ← getSourceLocation r Option.none
      pure
        (match op with
         | .lessThan => Nodes.LowerThanRelationExpression (some loc) l rv
         | .lessThanEquals =>
             Nodes.LowerThanEqualRelationExpression (some loc) l rv
         | .moreThan => Nodes.GreaterThanRelationExpression (some loc) l rv
         | .greaterThanEquals =>
             Nodes.GreaterThanEqualRelationExpression (some loc) l rv)
  | .inExpr _ => .error (.notImplementedError "InExpression")
  | .equalityExpr r op lhs rhs => do
      let l ← ExpressionListener.build lhs
      let rv ← ExpressionListener.build rhs
      let loc ← getSourceLocation r Option.none
      pure
        (match op with
         | .equalsTok => Nodes.EqualityExpression (some loc) l rv
         | .notEquals => Nodes.NotEqualityExpression (some loc) l rv
         | .identityEquals =>
             Nodes.IdentityEqualityExpression (some loc) l rv
         | .identityNotEquals =>
             Nodes.NotIdentityEqualityExpression (some loc) l rv)
  | .bitAndExpr _ => .error (.notImplementedError "BitAndExpression")
  | .bitOrExpr _ => .error (.notImplementedError "BitOrExpression")
  | .bitXOrExpr _ => .error (.notImplementedError "BitXOrExpression")
  | .logicalAndExpr _ => .error (.notImplementedError "LogicalAndExpression")
  | .logicalOrExpr _ => .error (.notImplementedError "LogicalOrExpression")
  | .ternaryExpr _ => .error (.notImplementedError "TernaryExpression")
  | .assignmentExpr r lhs rhs => do
      let l ← ExpressionListener.build lhs
      let rv ← ExpressionListener.build rhs
      let loc ← getSourceLocation r Option.none
      pure (Nodes.AssignmentExpression (some loc) .ASSIGN l rv)
  | .assignmentOperatorExpr r op lhs rhs => do
      let l ← ExpressionListener.build lhs
      let rv ← ExpressionListener.build rhs
      let oper := assignOpLookup op
      let loc ← getSourceLocation r Option.none
      pure (Nodes.AssignmentExpression (some loc) oper l rv)
  | .importExpr _ => .error (.notImplementedError "ImportExpression")
  | .functionExpr _ => .error (.notImplementedError "FunctionExpression")
  | .classExpr _ => .error (.notImplementedError "ClassExpression")
  | .memberIndexExpr _ => .error (.notImplementedError "MemberIndexExpression")
  | .memberDotExpr _ => .error (.notImplementedError "MemberDotExpression")
  | .argumentsExpr _ => .error (.notImplementedError "ArgumentsExpression")
  | .newExpr _ => .error (.notImplementedError "NewExpression")
  | .metaExpr _ => .error (.notImplementedError "MetaExpression")
  | .parenthesizedExpr _ seq => do
      let _ ← ExpressionListener.buildSeq seq
      .error (.notImplementedError "ParenthesizedExpression")

/-- `ExpressionListener.enterExpressionSequence`: builds each
`singleExpression` and wraps the list in a `SequenceExpression`. -/
def ExpressionListener.buildSeq : ExprSeqCtx → Except PyError PyVal
  | .mk r exprs => do
      let loc ← getSourceLocation r Option.none
      let es ← buildExprList exprs
      pure (Nodes.SequenceExpression (some loc) es)

/-- Builds the expressions of a sequence in order (first failure aborts). -/
def buildExprList : List SingleExprCtx → Except PyError (List PyVal)
  | [] => pure []
  | e :: rest => do
      let v ← ExpressionListener.build e
      let vs ← buildExprList rest
      pure (v :: vs)

/-- `ArrayLiteralExpandListener.enterArrayLiteral`: dereferences
`elementList()` unconditionally (`AttributeError` when absent). -/
def ArrayLiteralExpandListener.build : ArrayLitCtx → Except PyError (List PyVal)
  | .mk _ Option.none => .error .attributeError
  | .mk _ (some elems) => buildArrayElems elems

/-- `ArrayLiteralExpandListener.enterArrayElement` over the element list:
spread elements are wrapped in a `SpreadElement`. -/
def buildArrayElems : List ArrayElemCtx → Except PyError (List PyVal)
  | [] => pure []
  | .mk r hasEllipsis e :: rest => do
      let v ← ExpressionListener.build e
      let item ←
        if hasEllipsis then do
          let loc ← getSourceLocation r Option.none
          pure (Nodes.SpreadElement (some loc) v)
        else pure v
      let vs ← buildArrayElems rest
      pure (item :: vs)

end

/-- An `assignable` rule context (its single child). -/
inductive AssignableCtx where
  | ident (idCtx : IdentifierCtx)
  | arrayLit (arr : ArrayLitCtx)
  | objectLit (r : Ctx)

/-- `AssignableListener`: identifier, array pattern or (unsupported) object
pattern.  Unlike the expression path, the array case tolerates an absent
`elementList`. -/
def AssignableListener.build : AssignableCtx → Except PyError PyVal
  | .ident idCtx => buildIdentifier idCtx
  | .arrayLit (.mk r elemOpt) => do
      let loc ← getSourceLocation r Option.none
      let elems ←
        match elemOpt with
        | Option.none => pure ([] : List PyVal)
        | some es => buildArrayElems es
      pure (Nodes.ArrayPattern (some loc) elems)
  | .objectLit _ => .error (.notImplementedError "ObjectLiteral assignment")

/-- A `variableDeclaration` rule context: an assignable plus an optional
initializer expression. -/
structure VariableDeclarationCtx where
  ctx : Ctx
  assignable : AssignableCtx
  singleExpression : Option SingleExprCtx

/-- `VariableDeclarationListener.enterVariableDeclaration`. -/
def VariableDeclarationListener.build (c : VariableDeclarationCtx) :
    Except PyError PyVal := do
  let loc ← getSourceLocation c.ctx Option.none
  let target ← AssignableListener.build c.assignable
  let init ←
    match c.singleExpression with
    | Option.none => pure (Option.none : Option PyVal)
    | some e => do
        let v ← ExpressionListener.build e
        pure (some v)
  pure (Nodes.VariableDeclarator (some loc) target init)

/-- A `variableDeclarationList` rule context: the `varModifier` text
(`var`/`let`/`const`) and the declarations. -/
structure VariableDeclarationListCtx where
  ctx : Ctx
  varModifierText : String
  decls : List VariableDeclarationCtx

/-- The loop of `enterVariableDeclarationList` over the declarations. -/
def buildVarDecls : List VariableDeclarationCtx → Except PyError (List PyVal)
  | [] => pure []
  | d :: rest => do
      let v ← VariableDeclarationListener.build d
      let vs ← buildVarDecls rest
      pure (v :: vs)

/-- `StatementListener.enterVariableDeclarationList`. -/
def buildVariableDeclarationList (c : VariableDeclarationListCtx) :
    Except PyError PyVal := do
  let ds ← buildVarDecls c.decls
  let loc ← getSourceLocation c.ctx Option.none
  pure (Nodes.VariableDeclaration (some loc) c.varModifierText ds)

/-- A `statement` parse-tree node, one constructor per alternative the
`StatementListener` dispatches on.  `block` carries `statementList()`
(absent for `{}`). -/
inductive StatementAlt where
  | block (r : Ctx) (statementList : Option (List StatementAlt))
  | variableStatement (r : Ctx) (declList : VariableDeclarationListCtx)
  | emptyStatement (r : Ctx)
  | expressionStatement (r : Ctx) (exprSeq : ExprSeqCtx)
  | ifStatement (r : Ctx)
  | functionDeclaration (r : Ctx)
  | doStatement (r : Ctx)
  | whileStatement (r : Ctx)
  | forStatement (r : Ctx)
  | forInStatement (r : Ctx)
  | continueStatement (r : Ctx)
  | breakStatement (r : Ctx)
  | returnStatement (r : Ctx)
  | importStatement (r : Ctx)
  | exportDeclarationStatement (r : Ctx)
  | exportDefaultDeclarationStatement (r : Ctx)
  | classDeclarationStatement (r : Ctx)

mutual

/-- `StatementListener`: dispatch over statement alternatives.  The traversal
flags `in_loop`/`in_func` are accepted but not consulted, as in the source. -/
def StatementListener.build (_inLoop _inFunc : Bool) :
    StatementAlt → Except PyError PyVal
  | .block r stmtListOpt =>
      match stmtListOpt with
      | Option.none => .error .attributeError
      | some stmts => do
          let stmtList ← StatementListener.buildList stmts
          let loc ← getSourceLocation r Option.none
          pure (Nodes.BlockStatement (some loc) stmtList)
  | .variableStatement _ declList => buildVariableDeclarationList declList
  | .emptyStatement r => do
      let loc ← getSourceLocation r Option.none
      pure (Nodes.EmptyStatement (some loc))
  | .expressionStatement r seq => do
      let e ← ExpressionListener.buildSeq seq
      let loc ← getSourceLocation r Option.none
      pure (Nodes.ExpressionStatement (some loc) e)
  | .ifStatement _ => .error (.notImplementedError "IfStatement")
  | .functionDeclaration _ => .error (.notImplementedError "FunctionDeclaration")
  | .doStatement _ => .error (.notImplementedError "DoWhileStatement")
  | .whileStatement _ => .error (.notImplementedError "WhileStatement")
  | .forStatement _ => .error (.notImplementedError "ForStatement")
  | .forInStatement _ => .error (.notImplementedError "ForInStatement")
  | .continueStatement _ => .error (.notImplementedError "ContinueStatement")
  | .breakStatement _ => .error (.notImplementedError "BreakStatement")
  | .returnStatement _ => .error (.notImplementedError "ReturnStatement")
  | .importStatement _ => .error (.notImplementedError "ImportStatement")
  | .exportDeclarationStatement _ =>
      .error (.notImplementedError "ExportDeclaration")
  | .exportDefaultDeclarationStatement _ =>
      .error (.notImplementedError "ExportDefaultDeclaration")
  | .classDeclarationStatement _ =>
      .error (.notImplementedError "ClassDeclaration")

/-- The statement loops of `enterBlock` and `SourceElementListener`: each
statement gets a fresh `StatementListener()` with default flags. -/
def StatementListener.buildList : List StatementAlt → Except PyError (List PyVal)
  | [] => pure []
  | s :: rest => do
      let v ← StatementListener.build false false s
      let vs ← StatementListener.buildList rest
      pure (v :: vs)

end

/-- A `program` rule context: an optional hashbang line and the
`sourceElements()` child, absent for an empty source text. -/
structure ProgramCtx where
  ctx : Ctx
  hashbang : Option String
  sourceElements : Option (List StatementAlt)

/-- The `ASTListener` object state: `_program_node` is `none` while the
attribute has never been assigned (the constructor that ran does not
initialize it), `some v` once assigned. -/
structure ASTListener where
  programNode : Option (Option PyVal)
  sourceType : String

/-- `ASTListener()` : the class defines `__init__` twice; the second
definition (which only sets `_source_type`) shadows the first (which would
set `_program_node = None`), so `_program_node` is left unassigned. -/
def ASTListener.new (sourceType : String) : ASTListener :=
  ⟨Option.none, sourceType⟩

/-- The `program_node` property: reading the never-assigned `_program_node`
attribute raises `AttributeError`; the guard raising
`ValueError("Program AST node is None, ...")` only fires when the attribute
holds an assigned `None`. -/
def ASTListener.programNodeGet (l : ASTListener) : Except PyError PyVal :=
  match l.programNode with
  | Option.none => .error .attributeError
  | some Option.none =>
      .error (.valueError "Program AST node is None, did you run the listener?")
  | some (some p) => .ok p

/-- `ASTListener.enterProgram`: optional hashbang (only logged), then the
unconditional walk over `ctx.sourceElements().children` (an `AttributeError`
when `sourceElements()` is `None`), then the program location and node. -/
def ASTListener.enterProgram (l : ASTListener) (ctx : ProgramCtx) :
    Except PyError ASTListener := do
  match ctx.sourceElements with
  | Option.none => .error .attributeError
  | some elems => do
      let stmts ← StatementListener.buildList elems
      let loc ← getSourceLocation ctx.ctx Option.none
      pure
        { l with
            programNode := some (some (Nodes.Program (some loc) l.sourceType stmts)) }

/-- `from_parse_tree`: construct an `ASTListener` (default source type
`"script"`), walk the tree (the listener only overrides `enterProgram`, so
the walk amounts to running it on the root) and read `program_node`. -/
def fromParseTree (tree : ProgramCtx) : Except PyError PyVal := do
  let listener := ASTListener.new "script"
  let listener ← listener.enterProgram tree
  listener.programNodeGet

mutual

/-- Whether a statement parse-tree node contains an `IfStatement`
production (directly or inside nested blocks; expressions cannot contain
statements in the modelled grammar fragment). -/
def stmtContainsIf : StatementAlt → Bool
  | .ifStatement _ => true
  | .block _ (some stmts) => stmtsContainIf stmts
  | .block _ Option.none => false
  | .variableStatement _ _ => false
  | .emptyStatement _ => false
  | .expressionStatement _ _ => false
  | .functionDeclaration _ => false
  | .doStatement _ => false
  | .whileStatement _ => false
  | .forStatement _ => false
  | .forInStatement _ => false
  | .continueStatement _ => false
  | .breakStatement _ => false
  | .returnStatement _ => false
  | .importStatement _ => false
  | .exportDeclarationStatement _ => false
  | .exportDefaultDeclarationStatement _ => false
  | .classDeclarationStatement _ => false

def stmtsContainIf : List StatementAlt → Bool
  | [] => false
  | s :: rest => stmtContainsIf s || stmtsContainIf rest

end

/-- Whether a program parse tree contains an `IfStatement` production. -/
def programContainsIf (p : ProgramCtx) : Bool :=
  match p.sourceElements with
  | Option.none => false
  | some elems => stmtsContainIf elems

/-! ### Substring occurrence and the clean-tree predicate -/

/-- `p` occurs as a contiguous substring of `l`. -/
def isSub (p l : List Char) : Prop := ∃ s t, l = s ++ p ++ t

/-- `p` is a prefix of `l`. -/
def isPfx (p l : List Char) : Prop := ∃ t, l = p ++ t

/-- `p` is a suffix of `l`. -/
def isSfx (p l : List Char) : Prop := ∃ s, l = s ++ p

/-- The string ends with a newline character. -/
def endsNl (s : String) : Prop := ∃ a, s.data = a ++ ['\n']

/-- The two field-label patterns whose absence from short-mode output is
claimed. -/
def IsLabelPat (p : List Char) : Prop := p = "type:".data ∨ p = "loc:".data

/-- The single line the printer emits for a value itself (the `result` of
`to_ascii_tree` before the children are appended). -/
def lineOf (v : PyVal) (namePfx : String) (nestingLvl : Int) : String :=
  strRepeat nestedMarker (nestingLvl - 1) ++
    (if 0 < nestingLvl then subentryMarker else "") ++
    (namePfx ++ (if valueStr v ≠ "" ∧ namePfx ≠ "" then " " else "")) ++
    valueStr v ++ "\n"

/-- Executable substring occurrence test. -/
def occursIn : List Char → List Char → Bool
  | p, [] => p.isEmpty
  | p, c :: rest => p.isPrefixOf (c :: rest) || occursIn p rest

/-- `pat` occurs as a substring of `s` (Python's `pat in s`). -/
def strHas (pat s : String) : Bool := occursIn pat.data s.data

/-- A string safe to use before a printer label's colon: it contains no colon
and does not end in `type` or `loc`. -/
def keyOk (k : String) : Bool :=
  k.data.all (· ≠ ':') && !(List.isSuffixOf "type".data k.data) &&
    !(List.isSuffixOf "loc".data k.data)

/-- A string free of the two label substrings. -/
def strOk (s : String) : Bool := !(strHas "type:" s) && !(strHas "loc:" s)

/-- The `source` attribute of a `SourceLocation` is rendered followed by a
colon, so it must satisfy `keyOk`. -/
def srcOk : Option String → Bool
  | Option.none => true
  | some s => keyOk s

/-- Constraint on the `__str__` override data of a node. -/
def skOk : StrKind → Bool
  | .default => true
  | .nullLit => true
  | .boolLit _ => true
  | .strLit s => strOk s

mutual

/-- A tree is clean when every raw string embedded in it avoids the
substrings `type:` and `loc:`; field names (other than the blacklisted
`type`/`loc`) and location sources additionally contain no colon and do not
end in `type`/`loc`; trees containing tuples (`MetaProperty.meta`) are
excluded because their rendering is Python's default object `repr`. -/
def cleanVal : PyVal → Bool
  | .str s => strOk s
  | .pbool _ => true
  | .pnone => true
  | .num r => strOk r
  | .int _ => true
  | .enum v => strOk v
  | .pos _ => true
  | .locv l => srcOk l.source
  | .node tag loc sk fs =>
      strOk tag &&
        (match loc with
         | Option.none => true
         | some l => srcOk l.source) &&
        skOk sk && cleanFields fs
  | .list xs => cleanItems xs
  | .tuple _ => false

def cleanFields : List (String × PyVal) → Bool
  | [] => true
  | (k, v) :: rest =>
      (k = "type" || k = "loc" || keyOk k) && cleanVal v && cleanFields rest

def cleanItems : List PyVal → Bool
  | [] => true
  | v :: rest => cleanVal v && cleanItems rest

end

/-- Field lookup on a node object. -/
def fieldLookup (k : String) (v : PyVal) : Option PyVal :=
  (fieldsOf v).lookup k

/-- The operators bound by the generated assignment specializations
`SimpleAssignExpression` … `PowAssignExpression`, in source order
(`nodes.py` lines 972–1017). -/
def generatedAssignmentOperators : List AssignmentOperator :=
  [.ASSIGN, .ADD, .SUB, .MUL, .DIV, .SHL, .SHR, .SHR_LOGIC, .OR, .XOR, .AND,
   .POW]

/-! ## Theorems -/

/-- C5: constructing a `Position` fails with `InvalidPosition` (realized as a
`ValueError` carrying the formatted message) exactly when `line < 1` or
`column < 0`; otherwise it succeeds with the given line and column.  In
particular `Position(0, 0)` fails and `Position(1, 0)` succeeds. -/
theorem position_init_validates :
    (∀ line column : Int, 1 ≤ line ∧ 0 ≤ column →
      Position.init line column = .ok ⟨line, column⟩) ∧
    (∀ line column : Int, line < 1 ∨ column < 0 →
      Position.init line column =
        .error (.valueError (posErrMsg line column))) ∧
    Position.init 0 0 = .error (.valueError (posErrMsg 0 0)) ∧
    Position.init 1 0 = .ok ⟨1, 0⟩ := by
  refine ⟨?_, ?_, by rfl, by rfl⟩
  · intro l c h
    have : ¬(l < 1 || c < 0) = true := by
      simp only [Bool.or_eq_true, decide_eq_true_eq]
      omega
    simp [Position.init, this]
  · intro l c h
    have : (l < 1 || c < 0) = true := by
      simp only [Bool.or_eq_true, decide_eq_true_eq]
      omega
    simp [Position.init, this]

/-- Witness for `position_init_validates` at concrete positions. -/
theorem position_init_validates_witness :
    Position.init 5 7 = .ok ⟨5, 7⟩ ∧
    Position.init 0 3 = .error (.valueError (posErrMsg 0 3)) :=
  ⟨position_init_validates.1 5 7 (by constructor <;> decide),
   position_init_validates.2.1 0 3 (Or.inl (by decide))⟩

/-- C8: reading `program_node` on a freshly constructed `ASTListener`, before
any walk, raises `AttributeError` — not the defensive
`ValueError("Program AST node is None, did you run the listener?")` the
property's guard intends — because the second `__init__` definition shadows
the one that would initialize `_program_node`. -/
theorem astListener_programNode_before_walk :
    (∀ sourceType : String,
      (ASTListener.new sourceType).programNodeGet = .error .attributeError) ∧
    (ASTListener.new "script").programNodeGet ≠
      .error (.valueError
        "Program AST node is None, did you run the listener?") := by
  constructor
  · intro st; rfl
  · intro h
    exact PyError.noConfusion (Except.error.inj h)

/-- C9: `ModAssignExpression` binds the enumerated operator
`AssignmentOperator.DIV` (the `/=` token) rather than
`AssignmentOperator.MOD` (`%=`), and no generated assignment specialization
binds `MOD`. -/
theorem modAssignExpression_binds_div :
    (∀ (loc : Option SourceLocation) (left right : PyVal),
      fieldLookup "operator" (Nodes.ModAssignExpression loc left right) =
        some (.enum AssignmentOperator.DIV.value)) ∧
    AssignmentOperator.DIV.value = "/=" ∧
    AssignmentOperator.MOD.value = "%=" ∧
    AssignmentOperator.MOD ∉ generatedAssignmentOperators := by
  refine ⟨?_, rfl, rfl, by decide⟩
  intro loc left right
  rfl

/-- C10: a program parse tree whose `program` production has no
`sourceElements` child (an empty source text) makes `from_parse_tree` raise
`AttributeError` — the program builder dereferences the absent list
unconditionally — instead of returning a `Program` with an empty body. -/
theorem fromParseTree_empty_source_attributeError :
    ∀ (r : Ctx) (hashbang : Option String),
      fromParseTree ⟨r, hashbang, Option.none⟩ = .error .attributeError := by
  intro r hb
  rfl

/-- C4: every node-type constructor of the node model produces an ordered
`_fields` mapping that begins with the key `type` then the key `loc`,
followed by the subtype-specific field names in their fixed declaration
order. -/
theorem node_fields_order :
    ∀ c : NodeCtor,
      (fieldsOf (applyCtor c)).map Prod.fst =
        "type" :: "loc" :: declaredFields c := by
  intro c
  cases c <;> rfl

/-- C3: a `SourceLocation` successfully computed from a parse-tree context has
`start` equal to the first token's (line, column), `source` passed through,
and `end` equal to the last token's (line, column) with the column incremented
by one except when that column is 0 (the token ends exactly at a line break,
per the source comment), in which case it is not incremented. -/
theorem getSourceLocation_spec :
    ∀ (ctx : Ctx) (src : Option String) (loc : SourceLocation),
      getSourceLocation ctx src = .ok loc →
      loc.source = src ∧
      loc.start.line = ctx.startTok.line ∧
      loc.start.column = ctx.startTok.column ∧
      loc.endPos.line = ctx.stopTok.line ∧
      loc.endPos.column =
        (if ctx.stopTok.column = 0 then ctx.stopTok.column
         else ctx.stopTok.column + 1) := by
  intro ctx src loc h
  unfold getSourceLocation at h
  simp only [Bind.bind, Except.bind] at h
  cases h1 : Position.init ctx.startTok.line ctx.startTok.column with
  | error e => rw [h1] at h; exact Except.noConfusion h
  | ok sp =>
      rw [h1] at h
      cases h2 : Position.init ctx.stopTok.line ctx.stopTok.column with
      | error e => rw [h2] at h; exact Except.noConfusion h
      | ok ep =>
          rw [h2] at h
          unfold Position.init at h1 h2
          split at h1
          · exact Except.noConfusion h1
          · split at h2
            · exact Except.noConfusion h2
            · have hsp := (Except.ok.inj h1).symm
              have hep := (Except.ok.inj h2).symm
              subst hsp
              subst hep
              simp only [pure, Except.pure, Except.ok.injEq] at h
              subst h
              by_cases hc : ctx.stopTok.column = 0 <;> simp [hc]

/-- Witness for `getSourceLocation_spec`: a context whose last token starts at
column 4 yields an exclusive end column 5. -/
theorem getSourceLocation_spec_witness :
    getSourceLocation ⟨⟨1, 2⟩, ⟨3, 4⟩⟩ Option.none =
      .ok ⟨Option.none, ⟨1, 2⟩, ⟨3, 5⟩⟩ ∧
    (⟨Option.none, ⟨1, 2⟩, ⟨3, 5⟩⟩ : SourceLocation).endPos.column =
      (if (4 : Int) = 0 then (4 : Int) else 4 + 1) :=
  ⟨rfl,
   (getSourceLocation_spec ⟨⟨1, 2⟩, ⟨3, 4⟩⟩ Option.none
      ⟨Option.none, ⟨1, 2⟩, ⟨3, 5⟩⟩ rfl).2.2.2.2⟩

/-- Each expression of a sequence is built in order; success yields as many
AST expressions as there were `singleExpression` children. -/
theorem buildExprList_length :
    ∀ (es : List SingleExprCtx) (vs : List PyVal),
      buildExprList es = .ok vs → vs.length = es.length := by
  intro es
  induction es with
  | nil =>
      intro vs h
      simp only [buildExprList, pure, Except.pure, Except.ok.injEq] at h
      subst h
      rfl
  | cons e rest ih =>
      intro vs h
      simp only [buildExprList, Bind.bind, Except.bind] at h
      cases hb : ExpressionListener.build e with
      | error _ => rw [hb] at h; exact Except.noConfusion h
      | ok v =>
          rw [hb] at h
          cases hr : buildExprList rest with
          | error _ => rw [hr] at h; exact Except.noConfusion h
          | ok vs' =>
              rw [hr] at h
              simp only [pure, Except.pure, Except.ok.injEq] at h
              subst h
              simp [ih vs' hr]

/-- C2: a successfully built expression statement always wraps a
`SequenceExpression`; its expression list has exactly one element per
`singleExpression` child of the expression sequence, so a single bare
expression still yields a one-element `SequenceExpression`, not the bare
expression itself. -/
theorem expressionStatement_wraps_sequence :
    ∀ (r r2 : Ctx) (exprs : List SingleExprCtx) (b1 b2 : Bool) (st : PyVal),
      StatementListener.build b1 b2
          (.expressionStatement r (.mk r2 exprs)) = .ok st →
      ∃ (loc sloc : Option SourceLocation) (es : List PyVal),
        st = Nodes.ExpressionStatement loc (Nodes.SequenceExpression sloc es) ∧
        es.length = exprs.length := by
  intro r r2 exprs b1 b2 st h
  unfold StatementListener.build ExpressionListener.buildSeq at h
  simp only [Bind.bind, Except.bind] at h
  cases hl : getSourceLocation r2 Option.none with
  | error _ => rw [hl] at h; exact Except.noConfusion h
  | ok sloc =>
      rw [hl] at h
      cases he : buildExprList exprs with
      | error _ => rw [he] at h; exact Except.noConfusion h
      | ok es =>
          rw [he] at h
          simp only [pure, Except.pure] at h
          cases hs : getSourceLocation r Option.none with
          | error _ => rw [hs] at h; exact Except.noConfusion h
          | ok loc =>
              rw [hs] at h
              simp only [Except.ok.injEq] at h
              subst h
              exact ⟨some loc, some sloc, es, rfl, buildExprList_length exprs es he⟩

/-- Witness for `expressionStatement_wraps_sequence`: the statement built for
a single bare `null` literal is an `ExpressionStatement` wrapping a
one-element `SequenceExpression`. -/
theorem expressionStatement_wraps_sequence_witness :
    ∃ st, StatementListener.build false false
        (.expressionStatement ⟨⟨1, 0⟩, ⟨1, 4⟩⟩
          (.mk ⟨⟨1, 0⟩, ⟨1, 3⟩⟩
            [.literalExpr ⟨⟨1, 0⟩, ⟨1, 3⟩⟩ ⟨⟨⟨1, 0⟩, ⟨1, 3⟩⟩, .nullLit⟩])) =
        .ok st ∧
      ∃ (loc sloc : Option SourceLocation) (es : List PyVal),
        st = Nodes.ExpressionStatement loc (Nodes.SequenceExpression sloc es) ∧
        es.length = 1 := by
  refine
    ⟨Nodes.ExpressionStatement (some ⟨Option.none, ⟨1, 0⟩, ⟨1, 5⟩⟩)
        (Nodes.SequenceExpression (some ⟨Option.none, ⟨1, 0⟩, ⟨1, 4⟩⟩)
          [Nodes.NullLiteral (some ⟨Option.none, ⟨1, 0⟩, ⟨1, 4⟩⟩)]),
      rfl, ?_⟩
  exact expressionStatement_wraps_sequence ⟨⟨1, 0⟩, ⟨1, 4⟩⟩ ⟨⟨1, 0⟩, ⟨1, 3⟩⟩
    [.literalExpr ⟨⟨1, 0⟩, ⟨1, 3⟩⟩ ⟨⟨⟨1, 0⟩, ⟨1, 3⟩⟩, .nullLit⟩] false false
    (Nodes.ExpressionStatement (some ⟨Option.none, ⟨1, 0⟩, ⟨1, 5⟩⟩)
      (Nodes.SequenceExpression (some ⟨Option.none, ⟨1, 0⟩, ⟨1, 4⟩⟩)
        [Nodes.NullLiteral (some ⟨Option.none, ⟨1, 0⟩, ⟨1, 4⟩⟩)])) rfl

mutual

/-- A statement parse-tree node containing an if-statement never builds: some
error is raised (the if-statement itself, or an earlier failing construct). -/
theorem stmtContainsIf_build_error (s : StatementAlt)
    (h : stmtContainsIf s = true) :
    ∃ e, StatementListener.build false false s = .error e := by
  cases s with
  | ifStatement r => exact ⟨.notImplementedError "IfStatement", rfl⟩
  | block r sl =>
      cases sl with
      | none => exact ⟨.attributeError, rfl⟩
      | some stmts =>
          have h' : stmtsContainIf stmts = true := by
            simpa [stmtContainsIf] using h
          obtain ⟨e, he⟩ := stmtsContainIf_buildList_error stmts h'
          refine ⟨e, ?_⟩
          unfold StatementListener.build
          simp [Bind.bind, Except.bind, he]
  | variableStatement r d => simp [stmtContainsIf] at h
  | emptyStatement r => simp [stmtContainsIf] at h
  | expressionStatement r seq => simp [stmtContainsIf] at h
  | functionDeclaration r => simp [stmtContainsIf] at h
  | doStatement r => simp [stmtContainsIf] at h
  | whileStatement r => simp [stmtContainsIf] at h
  | forStatement r => simp [stmtContainsIf] at h
  | forInStatement r => simp [stmtContainsIf] at h
  | continueStatement r => simp [stmtContainsIf] at h
  | breakStatement r => simp [stmtContainsIf] at h
  | returnStatement r => simp [stmtContainsIf] at h
  | importStatement r => simp [stmtContainsIf] at h
  | exportDeclarationStatement r => simp [stmtContainsIf] at h
  | exportDefaultDeclarationStatement r => simp [stmtContainsIf] at h
  | classDeclarationStatement r => simp [stmtContainsIf] at h

/-- A statement list containing an if-statement never builds. -/
theorem stmtsContainIf_buildList_error (l : List StatementAlt)
    (h : stmtsContainIf l = true) :
    ∃ e, StatementListener.buildList l = .error e := by
  cases l with
  | nil => simp [stmtsContainIf] at h
  | cons s rest =>
      unfold stmtsContainIf at h
      rw [Bool.or_eq_true] at h
      unfold StatementListener.buildList
      cases hb : StatementListener.build false false s with
      | error e => exact ⟨e, by simp [Bind.bind, Except.bind, hb]⟩
      | ok v =>
          cases h with
          | inl hs =>
              obtain ⟨e, he⟩ := stmtContainsIf_build_error s hs
              rw [hb] at he
              exact Except.noConfusion he
          | inr hr =>
              obtain ⟨e, he⟩ := stmtsContainIf_buildList_error rest hr
              exact ⟨e, by simp [Bind.bind, Except.bind, hb, he]⟩

end

/-- When every statement before the if-statement builds successfully, the
statement-list builder fails with exactly the if-statement's error. -/
theorem buildList_reaches_if (ri : Ctx) (post : List StatementAlt) :
    ∀ pre : List StatementAlt,
      (∀ s ∈ pre, ∃ v, StatementListener.build false false s = .ok v) →
      StatementListener.buildList (pre ++ .ifStatement ri :: post) =
        .error (.notImplementedError "IfStatement") := by
  intro pre
  induction pre with
  | nil => intro _; rfl
  | cons s rest ih =>
      intro h
      obtain ⟨v, hv⟩ := h s (List.mem_cons_self s rest)
      have hrest := ih (fun s' hs' => h s' (List.mem_cons_of_mem s hs'))
      show StatementListener.buildList
        (s :: (rest ++ .ifStatement ri :: post)) = _
      unfold StatementListener.buildList
      simp [Bind.bind, Except.bind, hv, hrest]

/-- C1 (amended): building the AST from a parse tree containing an
if-statement production always fails — no `Program` node is ever returned —
and whenever the statements preceding the if-statement all build successfully
(in particular whenever the if-statement is the first unsupported construct
reached by the walk), the error is exactly
`UnsupportedFeature("IfStatement")`, i.e. `NotImplementedError("IfStatement")`,
propagated unmodified to `from_parse_tree`'s caller.  (As stated, the claim is
refuted by `fromParseTree_if_statement_counterexample`: an earlier unsupported
construct fails first with its own error name.) -/
theorem fromParseTree_if_statement_fails :
    (∀ p : ProgramCtx, programContainsIf p = true →
      ∀ v, fromParseTree p ≠ .ok v) ∧
    (∀ (r ri : Ctx) (hashbang : Option String)
        (pre post : List StatementAlt),
      (∀ s ∈ pre, ∃ v, StatementListener.build false false s = .ok v) →
      fromParseTree ⟨r, hashbang, some (pre ++ .ifStatement ri :: post)⟩ =
        .error (.notImplementedError "IfStatement")) := by
  constructor
  · rintro ⟨r, hb, se⟩ h v hok
    cases se with
    | none => simp [programContainsIf] at h
    | some elems =>
        have h' : stmtsContainIf elems = true := by
          simpa [programContainsIf] using h
        obtain ⟨e, he⟩ := stmtsContainIf_buildList_error elems h'
        unfold fromParseTree ASTListener.enterProgram at hok
        simp [Bind.bind, Except.bind, he] at hok
  · intro r ri hb pre post h
    have hlist := buildList_reaches_if ri post pre h
    unfold fromParseTree ASTListener.enterProgram
    simp [Bind.bind, Except.bind, hlist]

/-- Counterexample to C1 as stated: this parse tree contains an if-statement
production, yet `from_parse_tree` raises
`NotImplementedError("WhileStatement")` — the earlier unsupported
while-statement fails first — not `NotImplementedError("IfStatement")`. -/
theorem fromParseTree_if_statement_counterexample :
    programContainsIf
        ⟨⟨⟨1, 0⟩, ⟨1, 0⟩⟩, Option.none,
          some [.whileStatement ⟨⟨1, 0⟩, ⟨1, 0⟩⟩,
            .ifStatement ⟨⟨1, 0⟩, ⟨1, 0⟩⟩]⟩ = true ∧
    fromParseTree
        ⟨⟨⟨1, 0⟩, ⟨1, 0⟩⟩, Option.none,
          some [.whileStatement ⟨⟨1, 0⟩, ⟨1, 0⟩⟩,
            .ifStatement ⟨⟨1, 0⟩, ⟨1, 0⟩⟩]⟩ =
      .error (.notImplementedError "WhileStatement") ∧
    PyError.notImplementedError "WhileStatement" ≠
      PyError.notImplementedError "IfStatement" := by
  refine ⟨rfl, rfl, ?_⟩
  decide

/-- Witness for `fromParseTree_if_statement_fails`: a program whose only
statement is an if-statement returns no `Program`, and a program with one
supported statement before the if fails with exactly `IfStatement`. -/
theorem fromParseTree_if_statement_fails_witness :
    (∀ v, fromParseTree
        ⟨⟨⟨1, 0⟩, ⟨1, 0⟩⟩, Option.none,
          some [.ifStatement ⟨⟨1, 0⟩, ⟨1, 0⟩⟩]⟩ ≠ .ok v) ∧
    fromParseTree
        ⟨⟨⟨1, 0⟩, ⟨1, 0⟩⟩, Option.none,
          some [.emptyStatement ⟨⟨1, 0⟩, ⟨1, 0⟩⟩,
            .ifStatement ⟨⟨1, 0⟩, ⟨1, 0⟩⟩]⟩ =
      .error (.notImplementedError "IfStatement") := by
  constructor
  · exact fromParseTree_if_statement_fails.1 _ rfl
  · refine fromParseTree_if_statement_fails.2 ⟨⟨1, 0⟩, ⟨1, 0⟩⟩
      ⟨⟨1, 0⟩, ⟨1, 0⟩⟩ Option.none [.emptyStatement ⟨⟨1, 0⟩, ⟨1, 0⟩⟩] [] ?_
    intro s hs
    rw [List.mem_singleton] at hs
    subst hs
    exact ⟨Nodes.EmptyStatement (some ⟨Option.none, ⟨1, 0⟩, ⟨1, 0⟩⟩), rfl⟩

/-- Counterexample to C7 as stated: rendering a `NullLiteral` alone at
nesting level 0 does not yield the single line `"null"`; its `_fields`
(`type`, `loc`, `value`) are rendered as child lines in full mode, and the
`value` field still is in short mode. -/
theorem nullLiteral_render_counterexample :
    toAsciiTree (Nodes.NullLiteral Option.none) "" 0 "full" ≠ .ok "null\n" ∧
    toAsciiTree (Nodes.NullLiteral Option.none) "" 0 "short" ≠ .ok "null\n" := by
  constructor <;>
    · simp only [toAsciiTree, renderChildren, Nodes.NullLiteral, Nodes.baseFields,
        Nodes.locVal, valueStr, strRepeat, strRepeatNat, subentryMarker,
        nestedMarker, enumerateKeys, Bind.bind, Except.bind, pure, Except.pure,
        List.cons_append, List.nil_append]
      decide

/-- C7 (amended): rendering a `NullLiteral` alone at nesting level 0 yields
`"null"` as its own (root) line, followed by one child line per non-suppressed
field: `type`, `loc` and `value` in full mode; only `value` in short mode. -/
theorem nullLiteral_render :
    toAsciiTree (Nodes.NullLiteral Option.none) "" 0 "full" =
      .ok "null\n+-- type: Literal\n+-- loc: None\n+-- value: None\n" ∧
    toAsciiTree (Nodes.NullLiteral Option.none) "" 0 "short" =
      .ok "null\n+-- value: None\n" := by
  constructor <;>
    · simp only [toAsciiTree, renderChildren, Nodes.NullLiteral, Nodes.baseFields,
        Nodes.locVal, valueStr, strRepeat, strRepeatNat, subentryMarker,
        nestedMarker, enumerateKeys, Bind.bind, Except.bind, pure, Except.pure,
        List.cons_append, List.nil_append]
      decide

/-- Counterexample to C6 as stated: rendering a `StringLiteral` whose value is
the string `type:` in short mode produces an output containing the substring
`type:` (both in the root line's quoted rendering and in the `value` child
line). -/
theorem short_mode_suppression_counterexample :
    toAsciiTree (Nodes.StringLiteral Option.none "type:") "" 0 "short" =
      .ok "\"type:\"\n+-- value: type:\n" ∧
    strHas "type:" "\"type:\"\n+-- value: type:\n" = true := by
  constructor
  · simp only [toAsciiTree, renderChildren, Nodes.StringLiteral, Nodes.baseFields,
      Nodes.locVal, valueStr, strRepeat, strRepeatNat, subentryMarker,
      nestedMarker, enumerateKeys, Bind.bind, Except.bind, pure, Except.pure,
      List.cons_append, List.nil_append]
    decide
  · decide

/-! ### Substring lemmas for the short-mode suppression proof -/

theorem isSub_nil_left (l : List Char) : isSub [] l := ⟨[], l, rfl⟩

theorem isSub_self (p : List Char) : isSub p p := ⟨[], [], by simp⟩

theorem isSub_cons (c : Char) {p l : List Char} (h : isSub p l) :
    isSub p (c :: l) := by
  obtain ⟨s, t, rfl⟩ := h
  exact ⟨c :: s, t, rfl⟩

theorem isSub_append_right {p a : List Char} (b : List Char) (h : isSub p a) :
    isSub p (a ++ b) := by
  obtain ⟨s, t, rfl⟩ := h
  exact ⟨s, t ++ b, by simp⟩

theorem isSub_append_left {p b : List Char} (a : List Char) (h : isSub p b) :
    isSub p (a ++ b) := by
  obtain ⟨s, t, rfl⟩ := h
  exact ⟨a ++ s, t, by simp⟩

theorem mem_of_isSub {p l : List Char} (h : isSub p l) {c : Char}
    (hc : c ∈ p) : c ∈ l := by
  obtain ⟨s, t, rfl⟩ := h
  simp [hc]

theorem isSub_length {p l : List Char} (h : isSub p l) :
    p.length ≤ l.length := by
  obtain ⟨s, t, rfl⟩ := h
  simp
  omega

theorem isSub_nil_elim {p : List Char} (h : isSub p []) : p = [] := by
  obtain ⟨s, t, hst⟩ := h
  have := List.append_eq_nil.mp (List.append_eq_nil.mp hst.symm).1
  exact this.2

theorem isSub_singleton_elim {p : List Char} {c : Char}
    (h : isSub p [c]) : p = [] ∨ p = [c] := by
  obtain ⟨s, t, hst⟩ := h
  cases s with
  | nil =>
      cases p with
      | nil => exact Or.inl rfl
      | cons d p' =>
          simp only [List.nil_append, List.cons_append, List.cons.injEq] at hst
          obtain ⟨rfl, h2⟩ := hst
          obtain ⟨rfl, rfl⟩ := List.append_eq_nil.mp h2.symm
          exact Or.inr rfl
  | cons d s' =>
      simp only [List.cons_append, List.cons.injEq] at hst
      obtain ⟨rfl, h2⟩ := hst
      obtain ⟨h3, -⟩ := List.append_eq_nil.mp h2.symm
      obtain ⟨rfl, rfl⟩ := List.append_eq_nil.mp h3
      exact Or.inl rfl

theorem isSub_cons_elim {p l : List Char} {c : Char}
    (h : isSub p (c :: l)) : isPfx p (c :: l) ∨ isSub p l := by
  obtain ⟨s, t, hst⟩ := h
  cases s with
  | nil => exact Or.inl ⟨t, by simpa using hst⟩
  | cons d s' =>
      simp only [List.cons_append, List.cons.injEq] at hst
      exact Or.inr ⟨s', t, hst.2⟩

theorem isPfx_append_split {p x b : List Char} (h : isPfx p (x ++ b)) :
    isPfx p x ∨ ∃ r, p = x ++ r ∧ isPfx r b := by
  induction x generalizing p with
  | nil => exact Or.inr ⟨p, rfl, by simpa using h⟩
  | cons c x' ih =>
      cases p with
      | nil => exact Or.inl ⟨c :: x', rfl⟩
      | cons d p' =>
          obtain ⟨t, ht⟩ := h
          simp only [List.cons_append, List.cons.injEq] at ht
          obtain ⟨rfl, ht⟩ := ht
          rcases ih ⟨t, ht⟩ with ⟨u, hu⟩ | ⟨r, hr, hrb⟩
          · exact Or.inl ⟨u, by simp [hu]⟩
          · exact Or.inr ⟨r, by simp [hr], hrb⟩

theorem isSub_append_elim {p a b : List Char} (h : isSub p (a ++ b)) :
    isSub p a ∨ isSub p b ∨
      ∃ s1 s2, p = s1 ++ s2 ∧ s1 ≠ [] ∧ s2 ≠ [] ∧ isSfx s1 a ∧ isPfx s2 b := by
  induction a generalizing p with
  | nil => exact Or.inr (Or.inl (by simpa using h))
  | cons c a' ih =>
      have h' : isSub p (c :: (a' ++ b)) := by simpa using h
      rcases isSub_cons_elim h' with hpfx | hsub
      · have hpfx' : isPfx p ((c :: a') ++ b) := by simpa using hpfx
        rcases isPfx_append_split hpfx' with ⟨t, ht⟩ | ⟨r, hr, hrb⟩
        · exact Or.inl ⟨[], t, by simpa using ht⟩
        · cases r with
          | nil =>
              rw [List.append_nil] at hr
              exact Or.inl (hr ▸ isSub_self p)
          | cons rc rr =>
              exact Or.inr (Or.inr
                ⟨c :: a', rc :: rr, hr, by simp, by simp, ⟨[], rfl⟩, hrb⟩)
      · rcases ih hsub with h1 | h2 | ⟨s1, s2, hp, hne1, hne2, ⟨s, hs⟩, hpfx2⟩
        · exact Or.inl (isSub_cons c h1)
        · exact Or.inr (Or.inl h2)
        · exact Or.inr (Or.inr
            ⟨s1, s2, hp, hne1, hne2, ⟨c :: s, by simp [hs]⟩, hpfx2⟩)

theorem occursIn_iff (p l : List Char) : occursIn p l = true ↔ isSub p l := by
  induction l with
  | nil =>
      simp only [occursIn, List.isEmpty_iff]
      constructor
      · rintro rfl; exact isSub_nil_left []
      · intro h; exact isSub_nil_elim h
  | cons c rest ih =>
      simp only [occursIn, Bool.or_eq_true, ih, List.isPrefixOf_iff_prefix]
      constructor
      · rintro (hpfx | hsub)
        · obtain ⟨t, ht⟩ := hpfx
          exact ⟨[], t, by simp [← ht]⟩
        · exact isSub_cons c hsub
      · intro h
        rcases isSub_cons_elim h with hpfx | hsub
        · obtain ⟨t, ht⟩ := hpfx
          exact Or.inl ⟨t, ht.symm⟩
        · exact Or.inr hsub

theorem isSub_barrier_char {p a b : List Char} {c : Char} (hc : c ∉ p)
    (h : isSub p (a ++ c :: b)) : isSub p a ∨ isSub p b := by
  rcases isSub_append_elim h with h1 | h2 | ⟨s1, s2, hp, _, hne2, _, hpfx⟩
  · exact Or.inl h1
  · rcases isSub_cons_elim h2 with hpfx | hsub
    · obtain ⟨t, ht⟩ := hpfx
      cases p with
      | nil => exact Or.inl (isSub_nil_left a)
      | cons d p' =>
          simp only [List.cons_append, List.cons.injEq] at ht
          exact absurd (ht.1 ▸ List.mem_cons_self d p') hc
    · exact Or.inr hsub
  · cases s2 with
    | nil => exact absurd rfl hne2
    | cons e s2' =>
        obtain ⟨t, ht⟩ := hpfx
        simp only [List.cons_append, List.cons.injEq] at ht
        have : e ∈ p := by
          rw [hp]
          exact List.mem_append_right s1 (List.mem_cons_self e s2')
        exact absurd (ht.1 ▸ this) hc

theorem isSub_barrier_alphabet {p a b : List Char} (hp : p ≠ [])
    (ha : ∀ c ∈ a, c ∉ p) (h : isSub p (a ++ b)) : isSub p b := by
  rcases isSub_append_elim h with h1 | h2 | ⟨s1, s2, hpe, hne1, _, ⟨s, hs⟩, _⟩
  · cases p with
    | nil => exact absurd rfl hp
    | cons d p' =>
        have hd : d ∈ a := mem_of_isSub h1 (List.mem_cons_self d p')
        exact absurd (List.mem_cons_self d p') (ha d hd)
  · exact h2
  · cases s1 with
    | nil => exact absurd rfl hne1
    | cons d s1' =>
        have hd : d ∈ a := by
          rw [hs]
          exact List.mem_append_right s (List.mem_cons_self d s1')
        have hdp : d ∈ p := by
          rw [hpe]
          exact List.mem_append_left s2 (List.mem_cons_self d s1')
        exact absurd hdp (ha d hd)

theorem isSub_endsNl_split {p : List Char} {a b : List Char}
    (hnl : '\n' ∉ p) (ha : ∃ a', a = a' ++ ['\n'])
    (h : isSub p (a ++ b)) : isSub p a ∨ isSub p b := by
  obtain ⟨a', rfl⟩ := ha
  have h' : isSub p (a' ++ '\n' :: b) := by simpa using h
  rcases isSub_barrier_char hnl h' with h1 | h2
  · exact Or.inl (isSub_append_right ['\n'] h1)
  · exact Or.inr h2

theorem colon_append_split {w s1 s2 : List Char} (hw : ':' ∉ w)
    (h : w ++ [':'] = s1 ++ ':' :: s2) : s1 = w ∧ s2 = [] := by
  induction w generalizing s1 with
  | nil =>
      cases s1 with
      | nil =>
          simp only [List.nil_append, List.cons.injEq] at h
          exact ⟨rfl, h.2.symm⟩
      | cons d s1' =>
          simp only [List.nil_append, List.cons_append, List.cons.injEq] at h
          exact absurd h.2.symm (by simp)
  | cons a w' ih =>
      have ha : a ≠ ':' := fun he => hw (he ▸ List.mem_cons_self a w')
      have hw' : ':' ∉ w' := fun he => hw (List.mem_cons_of_mem a he)
      cases s1 with
      | nil =>
          simp only [List.cons_append, List.nil_append, List.cons.injEq] at h
          exact absurd h.1 ha
      | cons d s1' =>
          simp only [List.cons_append, List.cons.injEq] at h
          obtain ⟨rfl, h2⟩ := h
          obtain ⟨h3, h4⟩ := ih hw' h2
          exact ⟨by rw [h3], h4⟩

/-! ### Facts about the two label patterns -/

theorem strdata_append (a b : String) : (a ++ b).data = a.data ++ b.data := rfl

theorem pat_ne_nil {p : List Char} (hp : IsLabelPat p) : p ≠ [] := by
  rcases hp with rfl | rfl <;> decide

theorem pat_len {p : List Char} (hp : IsLabelPat p) : 3 ≤ p.length := by
  rcases hp with rfl | rfl <;> decide

theorem pat_colon {p : List Char} (hp : IsLabelPat p) : ':' ∈ p := by
  rcases hp with rfl | rfl <;> decide

theorem pat_no_nl {p : List Char} (hp : IsLabelPat p) : '\n' ∉ p := by
  rcases hp with rfl | rfl <;> decide

theorem pat_no_space {p : List Char} (hp : IsLabelPat p) : ' ' ∉ p := by
  rcases hp with rfl | rfl <;> decide

theorem pat_no_quote {p : List Char} (hp : IsLabelPat p) : '"' ∉ p := by
  rcases hp with rfl | rfl <;> decide

theorem pat_shape {p : List Char} (hp : IsLabelPat p) :
    ∃ w, p = w ++ [':'] ∧ ':' ∉ w ∧
      (w = "type".data ∨ w = "loc".data) := by
  rcases hp with rfl | rfl
  · exact ⟨"type".data, by decide, by decide, Or.inl rfl⟩
  · exact ⟨"loc".data, by decide, by decide, Or.inr rfl⟩

theorem pat_no_digit {p : List Char} (hp : IsLabelPat p) :
    ∀ c ∈ p, ¬(c.isDigit = true ∨ c = '-') := by
  rcases hp with rfl | rfl <;> decide

theorem pat_no_glyph {p : List Char} (hp : IsLabelPat p) :
    ∀ c, (c = '|' ∨ c = ' ' ∨ c = '+' ∨ c = '-') → c ∉ p := by
  rcases hp with rfl | rfl <;> rintro c (rfl | rfl | rfl | rfl) <;> decide

/-- A pattern never starts at a character it does not contain. -/
theorem not_isPfx_cons {p X : List Char} {c : Char} (hne : p ≠ [])
    (hc : c ∉ p) : ¬ isPfx p (c :: X) := by
  rintro ⟨t, ht⟩
  cases p with
  | nil => exact hne rfl
  | cons d p' =>
      simp only [List.cons_append, List.cons.injEq] at ht
      exact hc (ht.1 ▸ List.mem_cons_self d p')

/-- A label pattern never starts at a colon: its colon is final, preceded by
the word. -/
theorem pat_not_isPfx_colon {p X : List Char} (hp : IsLabelPat p) :
    ¬ isPfx p (':' :: X) := by
  obtain ⟨w, rfl, hw, hwval⟩ := pat_shape hp
  rintro ⟨t, ht⟩
  cases w with
  | nil => rcases hwval with h | h <;> exact List.noConfusion h
  | cons wh wt =>
      simp only [List.cons_append, List.cons.injEq] at ht
      exact hw (ht.1 ▸ List.mem_cons_self wh wt)

/-! ### Character-set lemmas for rendered scalars -/

theorem digitChar_mem (d : Nat) :
    digitChar d ∈ ['0', '1', '2', '3', '4', '5', '6', '7', '8', '9'] := by
  unfold digitChar
  split <;> decide

theorem natChars_digits (n : Nat) :
    ∀ c ∈ natChars n,
      c ∈ ['0', '1', '2', '3', '4', '5', '6', '7', '8', '9'] := by
  induction n using Nat.strong_induction_on with
  | _ n ih =>
      intro c hc
      unfold natChars at hc
      split at hc
      · simp only [List.mem_singleton] at hc
        exact hc ▸ digitChar_mem n
      · rw [List.mem_append] at hc
        rcases hc with hc | hc
        · exact ih (n / 10) (by omega) c hc
        · simp only [List.mem_singleton] at hc
          exact hc ▸ digitChar_mem (n % 10)

theorem digit_isDigit {c : Char}
    (h : c ∈ ['0', '1', '2', '3', '4', '5', '6', '7', '8', '9']) :
    c.isDigit = true := by
  fin_cases h <;> decide

theorem intChars_charset (i : Int) :
    ∀ c ∈ intChars i, c.isDigit = true ∨ c = '-' := by
  intro c hc
  unfold intChars at hc
  split at hc
  · rcases List.mem_cons.mp hc with rfl | hc
    · exact Or.inr rfl
    · exact Or.inl (digit_isDigit (natChars_digits _ c hc))
  · exact Or.inl (digit_isDigit (natChars_digits _ c hc))

theorem pat_not_mem_intChars {p : List Char} (hp : IsLabelPat p) (i : Int) :
    ∀ c ∈ intChars i, c ∉ p := by
  intro c hc hmem
  exact pat_no_digit hp c hmem (intChars_charset i c hc)

theorem colon_not_mem_intChars (i : Int) : ':' ∉ intChars i := by
  intro h
  rcases intChars_charset i ':' h with h | h <;> simp at h

theorem strRepeatNat_data_mem (s : String) (n : Nat) :
    ∀ c ∈ (strRepeatNat s n).data, c ∈ s.data := by
  induction n with
  | zero => intro c hc; simp [strRepeatNat] at hc
  | succ n ih =>
      intro c hc
      unfold strRepeatNat at hc
      rw [strdata_append, List.mem_append] at hc
      rcases hc with hc | hc
      · exact hc
      · exact ih c hc

/-- Every character of the glyph area comes from the four marker glyphs. -/
theorem glyph_charset (k : Int) (lvl : Int) :
    ∀ c ∈ (strRepeat nestedMarker k ++
        (if 0 < lvl then subentryMarker else "")).data,
      c = '|' ∨ c = ' ' ∨ c = '+' ∨ c = '-' := by
  intro c hc
  rw [strdata_append, List.mem_append] at hc
  rcases hc with hc | hc
  · have h2 := strRepeatNat_data_mem nestedMarker k.toNat c
      (by simpa [strRepeat] using hc)
    rw [show nestedMarker.data = ['|', ' ', ' ', ' '] from rfl] at h2
    fin_cases h2 <;> decide
  · split at hc
    · rw [show subentryMarker.data = ['+', '-', '-', ' '] from rfl] at hc
      fin_cases hc <;> decide
    · simp at hc

/-! ### Clean-ness of the rendered pieces -/

theorem noColon_clean {p s : List Char} (hp : IsLabelPat p)
    (h : ':' ∉ s) : ¬ isSub p s :=
  fun hsub => h (mem_of_isSub hsub (pat_colon hp))

theorem strOk_clean {p : List Char} (hp : IsLabelPat p) {s : String}
    (hs : strOk s = true) : ¬ isSub p s.data := by
  unfold strOk strHas at hs
  rw [Bool.and_eq_true, Bool.not_eq_true', Bool.not_eq_true'] at hs
  rcases hp with rfl | rfl
  · intro hsub
    rw [← occursIn_iff] at hsub
    rw [hs.1] at hsub
    exact Bool.noConfusion hsub
  · intro hsub
    rw [← occursIn_iff] at hsub
    rw [hs.2] at hsub
    exact Bool.noConfusion hsub

theorem isSfx_iff_suffix {p l : List Char} : isSfx p l ↔ p <:+ l := by
  constructor
  · rintro ⟨s, rfl⟩; exact ⟨s, rfl⟩
  · rintro ⟨s, rfl⟩; exact ⟨s, rfl⟩

theorem keyOk_spec {k : String} (hk : keyOk k = true) :
    ':' ∉ k.data ∧ ¬ isSfx "type".data k.data ∧ ¬ isSfx "loc".data k.data := by
  unfold keyOk at hk
  rw [Bool.and_eq_true, Bool.and_eq_true] at hk
  obtain ⟨⟨h1, h2⟩, h3⟩ := hk
  refine ⟨?_, ?_, ?_⟩
  · intro hc
    have := List.all_eq_true.mp h1 ':' hc
    simp at this
  · intro hs
    rw [isSfx_iff_suffix, ← List.isSuffixOf_iff_suffix] at hs
    rw [Bool.not_eq_true'] at h2
    rw [h2] at hs
    exact Bool.noConfusion hs
  · intro hs
    rw [isSfx_iff_suffix, ← List.isSuffixOf_iff_suffix] at hs
    rw [Bool.not_eq_true'] at h3
    rw [h3] at hs
    exact Bool.noConfusion hs

/-- After a colon, a label pattern can neither start nor hide in a clean
tail. -/
theorem after_colon_clean {p X : List Char} (hp : IsLabelPat p)
    (hX : ¬ isSub p X) : ¬ isSub p (':' :: X) := by
  intro hsub
  rcases isSub_cons_elim hsub with hpfx | hsub'
  · exact pat_not_isPfx_colon hp hpfx
  · exact hX hsub'

theorem posStr_clean {p : List Char} (hp : IsLabelPat p) (q : Position) :
    ¬ isSub p (Position.str q).data := by
  intro hsub
  have hdata : (Position.str q).data =
      intChars q.line ++ ':' :: intChars q.column := by
    simp [Position.str, intStr, strdata_append]
  rw [hdata] at hsub
  have h2 := isSub_barrier_alphabet (pat_ne_nil hp)
    (pat_not_mem_intChars hp q.line) hsub
  exact after_colon_clean hp
    (noColon_clean hp (colon_not_mem_intChars q.column)) h2

theorem locStr_clean {p : List Char} (hp : IsLabelPat p)
    {lv : SourceLocation} (hsrc : srcOk lv.source = true) :
    ¬ isSub p (SourceLocation.str lv).data := by
  intro hsub
  unfold SourceLocation.str at hsub
  cases hs : lv.source with
  | none =>
      rw [hs] at hsub
      simp only [strdata_append] at hsub
      have : isSub p (Position.str lv.start).data := by
        simpa using hsub
      exact posStr_clean hp lv.start this
  | some s =>
      rw [hs] at hsub
      rw [hs] at hsrc
      unfold srcOk at hsrc
      obtain ⟨hcol, htype, hloc⟩ := keyOk_spec hsrc
      simp only [strdata_append] at hsub
      have hsub' : isSub p (s.data ++ ':' :: (Position.str lv.start).data) := by
        simpa [List.append_assoc] using hsub
      rcases isSub_append_elim hsub' with h1 | h2 | ⟨s1, s2, hpe, hne1, hne2, hsfx, hpfx⟩
      · exact noColon_clean hp hcol h1
      · exact after_colon_clean hp (posStr_clean hp lv.start) h2
      · cases s2 with
        | nil => exact hne2 rfl
        | cons e s2' =>
            obtain ⟨t, ht⟩ := hpfx
            simp only [List.cons_append, List.cons.injEq] at ht
            obtain ⟨rfl, -⟩ := ht
            obtain ⟨w, hw, hwcol, hwval⟩ := pat_shape hp
            obtain ⟨hs1, -⟩ := colon_append_split hwcol (hw.symm.trans hpe)
            rcases hwval with rfl | rfl
            · exact htype (hs1 ▸ hsfx)
            · exact hloc (hs1 ▸ hsfx)

/-- The rendered own-line value of a clean tree never contains a label
pattern. -/
theorem valueStr_clean {p : List Char} (hp : IsLabelPat p) (v : PyVal)
    (hv : cleanVal v = true) : ¬ isSub p (valueStr v).data := by
  cases v with
  | str s => exact strOk_clean hp (by simpa [cleanVal] using hv)
  | pbool b => cases b <;> exact noColon_clean hp (by decide)
  | pnone => exact noColon_clean hp (by decide)
  | num r => exact strOk_clean hp (by simpa [cleanVal] using hv)
  | int i =>
      apply noColon_clean hp
      show ':' ∉ intChars i
      exact colon_not_mem_intChars i
  | enum s => exact strOk_clean hp (by simpa [cleanVal] using hv)
  | pos q => exact posStr_clean hp q
  | locv lv => exact locStr_clean hp (by simpa [cleanVal] using hv)
  | node tag loc sk fs =>
      simp only [cleanVal, Bool.and_eq_true] at hv
      obtain ⟨⟨⟨htag, hloc⟩, hsk⟩, -⟩ := hv
      cases sk with
      | nullLit =>
          apply noColon_clean hp
          show ':' ∉ ("null" : String).data
          decide
      | boolLit b =>
          apply noColon_clean hp
          cases b
          · show ':' ∉ ("false" : String).data
            decide
          · show ':' ∉ ("true" : String).data
            decide
      | strLit s =>
          intro hsub
          have hs : strOk s = true := by simpa [skOk] using hsk
          have hdata : (valueStr (.node tag loc (.strLit s) fs)).data =
              '"' :: (s.data ++ ['"']) := by
            simp [valueStr, strdata_append]
          rw [hdata] at hsub
          rcases isSub_cons_elim hsub with hpfx | hsub'
          · exact not_isPfx_cons (pat_ne_nil hp) (pat_no_quote hp) hpfx
          · have : isSub p (s.data ++ '"' :: ([] : List Char)) := by
              simpa using hsub'
            rcases isSub_barrier_char (pat_no_quote hp) this with h1 | h1
            · exact strOk_clean hp hs h1
            · exact pat_ne_nil hp (isSub_nil_elim h1)
      | default =>
          intro hsub
          have hdata : (valueStr (.node tag loc .default fs)).data =
              tag.data ++ ' ' :: ('a' :: 't' :: ' ' ::
                (match loc with
                 | Option.none => ("None" : String)
                 | some l => SourceLocation.str l).data) := by
            cases loc <;> simp [valueStr, strdata_append]
          rw [hdata] at hsub
          rcases isSub_barrier_char (pat_no_space hp) hsub with h1 | h1
          · exact strOk_clean hp htag h1
          · have h2 : isSub p (['a', 't'] ++ ' ' ::
                (match loc with
                 | Option.none => ("None" : String)
                 | some l => SourceLocation.str l).data) := by
              simpa using h1
            rcases isSub_barrier_char (pat_no_space hp) h2 with h3 | h3
            · have hlen : p.length ≤ 2 := by simpa using isSub_length h3
              have := pat_len hp
              omega
            · cases hlc : loc with
              | none =>
                  rw [hlc] at h3
                  exact noColon_clean hp (by decide) h3
              | some lv =>
                  rw [hlc] at h3
                  rw [hlc] at hloc
                  exact locStr_clean hp (by simpa using hloc) h3
  | list xs => exact fun hsub => pat_ne_nil hp (isSub_nil_elim hsub)
  | tuple xs => simp [cleanVal] at hv

/-- A printed line — glyph margin, label, optional separating space, value,
newline — followed by any clean remainder never contains a label pattern.
The space separates label from value whenever both are nonempty, which is
what blocks occurrences straddling their boundary. -/
theorem line_seg_clean {p : List Char} (hp : IsLabelPat p)
    {g1 g2 pfxd spd vald restd : List Char}
    (hg1 : ∀ c ∈ g1, c = '|' ∨ c = ' ' ∨ c = '+' ∨ c = '-')
    (hg2 : ∀ c ∈ g2, c = '|' ∨ c = ' ' ∨ c = '+' ∨ c = '-')
    (hpfx : ¬ isSub p pfxd) (hval : ¬ isSub p vald)
    (hrest : ¬ isSub p restd)
    (hsp : spd = [' '] ∨ (spd = [] ∧ (pfxd = [] ∨ vald = []))) :
    ¬ isSub p (g1 ++ (g2 ++ (pfxd ++ (spd ++ (vald ++ '\n' :: restd))))) := by
  intro hsub
  have h1 := isSub_barrier_alphabet (pat_ne_nil hp)
    (fun c hc => pat_no_glyph hp c (hg1 c hc)) hsub
  have h2 := isSub_barrier_alphabet (pat_ne_nil hp)
    (fun c hc => pat_no_glyph hp c (hg2 c hc)) h1
  rcases hsp with rfl | ⟨rfl, hor⟩
  · have h3 : isSub p (pfxd ++ ' ' :: (vald ++ '\n' :: restd)) := by
      simpa using h2
    rcases isSub_barrier_char (pat_no_space hp) h3 with h4 | h4
    · exact hpfx h4
    · rcases isSub_barrier_char (pat_no_nl hp) h4 with h5 | h5
      · exact hval h5
      · exact hrest h5
  · rcases hor with rfl | rfl
    · have h3 : isSub p (vald ++ '\n' :: restd) := by simpa using h2
      rcases isSub_barrier_char (pat_no_nl hp) h3 with h4 | h4
      · exact hval h4
      · exact hrest h4
    · have h3 : isSub p (pfxd ++ '\n' :: restd) := by simpa using h2
      rcases isSub_barrier_char (pat_no_nl hp) h3 with h4 | h4
      · exact hpfx h4
      · exact hrest h4

/-- The own line of a clean value with a clean label, followed by a clean
remainder, never contains a label pattern. -/
theorem lineOf_rest_clean {p : List Char} (hp : IsLabelPat p) (v : PyVal)
    (pfx : String) (lvl : Int) {restd : List Char}
    (hval : ¬ isSub p (valueStr v).data) (hpfx : ¬ isSub p pfx.data)
    (hrest : ¬ isSub p restd) :
    ¬ isSub p ((lineOf v pfx lvl).data ++ restd) := by
  intro hsub
  have hdata : (lineOf v pfx lvl).data ++ restd =
      (strRepeat nestedMarker (lvl - 1)).data ++
        (((if 0 < lvl then subentryMarker else "") : String).data ++
          (pfx.data ++
            (((if valueStr v ≠ "" ∧ pfx ≠ "" then " " else "") : String).data ++
              ((valueStr v).data ++ '\n' :: restd)))) := by
    simp [lineOf, strdata_append, List.append_assoc]
  rw [hdata] at hsub
  refine line_seg_clean hp ?_ ?_ hpfx hval hrest ?_ hsub
  · intro c hc
    exact glyph_charset (lvl - 1) 0 c (by
      rw [strdata_append, List.mem_append]
      exact Or.inl hc)
  · intro c hc
    split at hc
    · rw [show subentryMarker.data = ['+', '-', '-', ' '] from rfl] at hc
      fin_cases hc <;> decide
    · simp at hc
  · by_cases hcond : valueStr v ≠ "" ∧ pfx ≠ ""
    · left
      simp [hcond]
    · right
      constructor
      · simp [hcond]
      · rw [not_and_or] at hcond
        rcases hcond with hcond | hcond
        · right
          rw [not_ne_iff] at hcond
          rw [hcond]
        · left
          rw [not_ne_iff] at hcond
          rw [hcond]

theorem enumerateKeys_size (i : Nat) (xs : List PyVal) :
    pvFieldsSize (enumerateKeys i xs) = pvItemsSize xs := by
  induction xs generalizing i with
  | nil => simp [enumerateKeys, pvFieldsSize, pvItemsSize]
  | cons y ys ih => simp [enumerateKeys, pvFieldsSize, pvItemsSize, ih]

theorem childrenOf_size {v : PyVal} {cs : List (String × PyVal)}
    (h : childrenOf v = some cs) : pvFieldsSize cs < pvSize v := by
  cases v with
  | node t loc sk fs =>
      simp only [childrenOf] at h
      injection h with h
      subst h
      simp [pvSize]
  | list xs =>
      simp only [childrenOf] at h
      injection h with h
      subst h
      simp [pvSize, enumerateKeys_size]
  | locv l =>
      simp only [childrenOf] at h
      injection h with h
      subst h
      simp [pvSize, pvFieldsSize]
  | str s => simp [childrenOf] at h
  | pbool b => simp [childrenOf] at h
  | pnone => simp [childrenOf] at h
  | num r => simp [childrenOf] at h
  | int i => simp [childrenOf] at h
  | enum s => simp [childrenOf] at h
  | pos q => simp [childrenOf] at h
  | tuple xs => simp [childrenOf] at h

/-- Output shape of a successful `to_ascii_tree` call: the value's own line,
followed by the rendered children when the value has any. -/
theorem toAsciiTree_ok_shape {v : PyVal} {pfx : String} {lvl : Int}
    {fmt out : String} (h : toAsciiTree v pfx lvl fmt = .ok out) :
    (childrenOf v = Option.none ∧ out = lineOf v pfx lvl) ∨
    (∃ cs rest, childrenOf v = some cs ∧
      renderChildren cs (if fmt = "short" then ["loc", "type"] else [])
        lvl fmt = .ok rest ∧
      out = lineOf v pfx lvl ++ rest) := by
  cases v with
  | node t loc sk fs =>
      simp only [toAsciiTree] at h
      split at h
      · exact Except.noConfusion h
      · cases hr : renderChildren fs
            (if fmt = "short" then ["loc", "type"] else []) lvl fmt with
        | error e => rw [hr] at h; exact Except.noConfusion h
        | ok rest =>
            rw [hr] at h
            exact Or.inr ⟨fs, rest, rfl, hr, (Except.ok.inj h).symm⟩
  | list xs =>
      simp only [toAsciiTree] at h
      split at h
      · exact Except.noConfusion h
      · cases hr : renderChildren (enumerateKeys 0 xs)
            (if fmt = "short" then ["loc", "type"] else []) lvl fmt with
        | error e => rw [hr] at h; exact Except.noConfusion h
        | ok rest =>
            rw [hr] at h
            exact Or.inr ⟨enumerateKeys 0 xs, rest, rfl, hr,
              (Except.ok.inj h).symm⟩
  | locv l =>
      simp only [toAsciiTree] at h
      split at h
      · exact Except.noConfusion h
      · cases hr : renderChildren
            [("start", PyVal.pos l.start), ("end", PyVal.pos l.endPos)]
            (if fmt = "short" then ["loc", "type"] else []) lvl fmt with
        | error e => rw [hr] at h; exact Except.noConfusion h
        | ok rest =>
            rw [hr] at h
            exact Or.inr ⟨_, rest, rfl, hr, (Except.ok.inj h).symm⟩
  | str s =>
      simp only [toAsciiTree] at h
      split at h
      · exact Except.noConfusion h
      · exact Or.inl ⟨rfl, (Except.ok.inj h).symm⟩
  | pbool b =>
      simp only [toAsciiTree] at h
      split at h
      · exact Except.noConfusion h
      · exact Or.inl ⟨rfl, (Except.ok.inj h).symm⟩
  | pnone =>
      simp only [toAsciiTree] at h
      split at h
      · exact Except.noConfusion h
      · exact Or.inl ⟨rfl, (Except.ok.inj h).symm⟩
  | num r =>
      simp only [toAsciiTree] at h
      split at h
      · exact Except.noConfusion h
      · exact Or.inl ⟨rfl, (Except.ok.inj h).symm⟩
  | int i =>
      simp only [toAsciiTree] at h
      split at h
      · exact Except.noConfusion h
      · exact Or.inl ⟨rfl, (Except.ok.inj h).symm⟩
  | enum s =>
      simp only [toAsciiTree] at h
      split at h
      · exact Except.noConfusion h
      · exact Or.inl ⟨rfl, (Except.ok.inj h).symm⟩
  | pos q =>
      simp only [toAsciiTree] at h
      split at h
      · exact Except.noConfusion h
      · exact Or.inl ⟨rfl, (Except.ok.inj h).symm⟩
  | tuple xs =>
      simp only [toAsciiTree] at h
      split at h
      · exact Except.noConfusion h
      · exact Or.inl ⟨rfl, (Except.ok.inj h).symm⟩

theorem endsNl_append_left {a b : String} (h : endsNl b) : endsNl (a ++ b) := by
  obtain ⟨b', hb⟩ := h
  exact ⟨a.data ++ b', by rw [strdata_append, hb, List.append_assoc]⟩

theorem endsNl_lineOf (v : PyVal) (pfx : String) (lvl : Int) :
    endsNl (lineOf v pfx lvl) := by
  unfold lineOf
  exact ⟨(strRepeat nestedMarker (lvl - 1) ++
      (if 0 < lvl then subentryMarker else "") ++
      (pfx ++ (if valueStr v ≠ "" ∧ pfx ≠ "" then " " else "")) ++
      valueStr v).data, rfl⟩

mutual

/-- Every successful `to_ascii_tree` output ends with a newline. -/
theorem toAsciiTree_endsNl (v : PyVal) (pfx : String) (lvl : Int)
    (fmt out : String) (h : toAsciiTree v pfx lvl fmt = .ok out) :
    endsNl out := by
  rcases toAsciiTree_ok_shape h with ⟨-, rfl⟩ | ⟨cs, rest, hch, hrc, rfl⟩
  · exact endsNl_lineOf v pfx lvl
  · rcases renderChildren_endsNl cs
        (if fmt = "short" then ["loc", "type"] else []) lvl fmt rest hrc with
      rfl | hr
    · obtain ⟨a, ha⟩ := endsNl_lineOf v pfx lvl
      exact ⟨a, by rw [strdata_append]; simpa using ha⟩
    · exact endsNl_append_left hr
  termination_by pvSize v
  decreasing_by
    exact childrenOf_size hch

/-- Every successful children rendering is empty or ends with a newline. -/
theorem renderChildren_endsNl (cs : List (String × PyVal)) (bl : List String)
    (lvl : Int) (fmt out : String)
    (h : renderChildren cs bl lvl fmt = .ok out) : out = "" ∨ endsNl out := by
  cases hcseq : cs with
  | nil =>
      rw [hcseq] at h
      simp only [renderChildren, pure, Except.pure] at h
      exact Or.inl (Except.ok.inj h).symm
  | cons kv rest' =>
      obtain ⟨k, v⟩ := kv
      rw [hcseq] at h
      simp only [renderChildren, Bind.bind, Except.bind] at h
      by_cases hbl : k ∈ bl
      · rw [if_pos hbl] at h
        simp only [pure, Except.pure] at h
        cases hr : renderChildren rest' bl lvl fmt with
        | error e => rw [hr] at h; exact Except.noConfusion h
        | ok tl =>
            rw [hr] at h
            obtain rfl := Except.ok.inj h
            rcases renderChildren_endsNl rest' bl lvl fmt tl hr with rfl | htl
            · exact Or.inl rfl
            · exact Or.inr (endsNl_append_left htl)
      · rw [if_neg hbl] at h
        cases htv : toAsciiTree v (k ++ ":") (lvl + 1) fmt with
        | error e => rw [htv] at h; exact Except.noConfusion h
        | ok hd =>
            rw [htv] at h
            cases hr : renderChildren rest' bl lvl fmt with
            | error e => rw [hr] at h; exact Except.noConfusion h
            | ok tl =>
                rw [hr] at h
                simp only [pure, Except.pure] at h
                obtain rfl := Except.ok.inj h
                right
                have hhd := toAsciiTree_endsNl v (k ++ ":") (lvl + 1) fmt hd htv
                rcases renderChildren_endsNl rest' bl lvl fmt tl hr with rfl | htl
                · obtain ⟨a, ha⟩ := hhd
                  exact ⟨a, by rw [strdata_append]; simpa using ha⟩
                · exact endsNl_append_left htl
  termination_by pvFieldsSize cs
  decreasing_by
    all_goals (rw [hcseq]; simp [pvFieldsSize])
    all_goals omega

end

theorem cleanFields_spec {fs : List (String × PyVal)}
    (h : cleanFields fs = true) :
    ∀ kv ∈ fs, (kv.1 = "type" ∨ kv.1 = "loc" ∨ keyOk kv.1 = true) ∧
      cleanVal kv.2 = true := by
  induction fs with
  | nil => intro kv hkv; simp at hkv
  | cons kv' rest ih =>
      intro kv hkv
      obtain ⟨k, v⟩ := kv'
      simp only [cleanFields, Bool.and_eq_true] at h
      obtain ⟨⟨hk, hv⟩, hrest⟩ := h
      rcases List.mem_cons.mp hkv with rfl | hkv'
      · refine ⟨?_, hv⟩
        simpa [Bool.or_eq_true, decide_eq_true_eq, or_assoc] using hk
      · exact ih hrest kv hkv'

theorem cleanItems_spec {xs : List PyVal} (h : cleanItems xs = true) :
    ∀ x ∈ xs, cleanVal x = true := by
  induction xs with
  | nil => intro x hx; simp at hx
  | cons y ys ih =>
      intro x hx
      simp only [cleanItems, Bool.and_eq_true] at h
      rcases List.mem_cons.mp hx with rfl | hx'
      · exact h.1
      · exact ih h.2 x hx'

theorem mem_enumerateKeys {kv : String × PyVal} :
    ∀ {i : Nat} {xs : List PyVal}, kv ∈ enumerateKeys i xs →
      ∃ j x, kv = (natStr j, x) ∧ x ∈ xs := by
  intro i xs
  induction xs generalizing i with
  | nil => intro h; simp [enumerateKeys] at h
  | cons y ys ih =>
      intro h
      rcases List.mem_cons.mp h with rfl | h'
      · exact ⟨i, y, rfl, List.mem_cons_self y ys⟩
      · obtain ⟨j, x, hkv, hx⟩ := ih h'
        exact ⟨j, x, hkv, List.mem_cons_of_mem y hx⟩

theorem keyOk_natStr (i : Nat) : keyOk (natStr i) = true := by
  unfold keyOk
  rw [Bool.and_eq_true, Bool.and_eq_true]
  refine ⟨⟨?_, ?_⟩, ?_⟩
  · rw [List.all_eq_true]
    intro c hc
    have hd := natChars_digits i c (by simpa [natStr] using hc)
    fin_cases hd <;> decide
  · rw [Bool.not_eq_true', Bool.eq_false_iff]
    intro hsuf
    rw [List.isSuffixOf_iff_suffix] at hsuf
    obtain ⟨t, ht⟩ := hsuf
    have hmem : 'e' ∈ (natStr i).data := by
      rw [← ht]
      exact List.mem_append_right t (by decide)
    have hd := natChars_digits i 'e' (by simpa [natStr] using hmem)
    exact absurd hd (by decide)
  · rw [Bool.not_eq_true', Bool.eq_false_iff]
    intro hsuf
    rw [List.isSuffixOf_iff_suffix] at hsuf
    obtain ⟨t, ht⟩ := hsuf
    have hmem : 'c' ∈ (natStr i).data := by
      rw [← ht]
      exact List.mem_append_right t (by decide)
    have hd := natChars_digits i 'c' (by simpa [natStr] using hmem)
    exact absurd hd (by decide)

theorem childrenOf_clean {v : PyVal} {cs : List (String × PyVal)}
    (hv : cleanVal v = true) (hch : childrenOf v = some cs) :
    ∀ kv ∈ cs, (kv.1 = "type" ∨ kv.1 = "loc" ∨ keyOk kv.1 = true) ∧
      cleanVal kv.2 = true := by
  cases v with
  | node t loc sk fs =>
      simp only [childrenOf] at hch
      injection hch with hch
      subst hch
      simp only [cleanVal, Bool.and_eq_true] at hv
      exact cleanFields_spec hv.2
  | list xs =>
      simp only [childrenOf] at hch
      injection hch with hch
      subst hch
      intro kv hkv
      obtain ⟨j, x, rfl, hx⟩ := mem_enumerateKeys hkv
      exact ⟨Or.inr (Or.inr (keyOk_natStr j)),
        cleanItems_spec (by simpa [cleanVal] using hv) x hx⟩
  | locv l =>
      simp only [childrenOf] at hch
      injection hch with hch
      subst hch
      intro kv hkv
      rcases List.mem_cons.mp hkv with rfl | hkv'
      · exact ⟨Or.inr (Or.inr (show keyOk "start" = true by decide)), rfl⟩
      · rcases List.mem_cons.mp hkv' with rfl | hkv''
        · exact ⟨Or.inr (Or.inr (show keyOk "end" = true by decide)), rfl⟩
        · simp at hkv''
  | str s => simp [childrenOf] at hch
  | pbool b => simp [childrenOf] at hch
  | pnone => simp [childrenOf] at hch
  | num r => simp [childrenOf] at hch
  | int i => simp [childrenOf] at hch
  | enum s => simp [childrenOf] at hch
  | pos q => simp [childrenOf] at hch
  | tuple xs => simp [childrenOf] at hch

/-- A rendered child label `k ++ ":"` with a safe key never contains a label
pattern. -/
theorem label_clean {p : List Char} (hp : IsLabelPat p) {k : String}
    (hk : keyOk k = true) : ¬ isSub p (k.data ++ [':']) := by
  intro hsub
  obtain ⟨hcol, htype, hloc⟩ := keyOk_spec hk
  rcases isSub_append_elim hsub with h1 | h2 | ⟨s1, s2, hpe, hne1, hne2, hsfx, hpfx⟩
  · exact noColon_clean hp hcol h1
  · rcases isSub_singleton_elim h2 with rfl | rfl
    · exact pat_ne_nil hp rfl
    · simpa using pat_len hp
  · obtain ⟨t, ht⟩ := hpfx
    cases s2 with
    | nil => exact hne2 rfl
    | cons e s2' =>
        simp only [List.cons_append, List.cons.injEq] at ht
        obtain ⟨rfl, ht2⟩ := ht
        obtain ⟨rfl, rfl⟩ := List.append_eq_nil.mp ht2.symm
        obtain ⟨w, hw, hwcol, hwval⟩ := pat_shape hp
        have hsplit := colon_append_split hwcol
          (hw.symm.trans (by simpa using hpe))
        rcases hwval with rfl | rfl
        · exact htype (hsplit.1 ▸ hsfx)
        · exact hloc (hsplit.1 ▸ hsfx)

mutual

/-- Short-mode rendering of a clean tree under a clean label never contains a
label pattern. -/
theorem toAsciiTree_short_clean (p : List Char) (hp : IsLabelPat p)
    (v : PyVal) (pfx : String) (lvl : Int) (out : String)
    (hv : cleanVal v = true) (hpfx : ¬ isSub p pfx.data)
    (h : toAsciiTree v pfx lvl "short" = .ok out) :
    ¬ isSub p out.data := by
  rcases toAsciiTree_ok_shape h with ⟨-, rfl⟩ | ⟨cs, rest, hch, hrc, rfl⟩
  · intro hsub
    have hsub' : isSub p ((lineOf v pfx lvl).data ++ []) := by simpa using hsub
    exact lineOf_rest_clean hp v pfx lvl (valueStr_clean hp v hv) hpfx
      (fun hx => pat_ne_nil hp (isSub_nil_elim hx)) hsub'
  · intro hsub
    have hcl := childrenOf_clean hv hch
    have hrestclean : ¬ isSub p rest.data :=
      renderChildren_short_clean p hp cs lvl rest hcl (by simpa using hrc)
    have hsub' : isSub p ((lineOf v pfx lvl).data ++ rest.data) := by
      rw [← strdata_append]
      exact hsub
    exact lineOf_rest_clean hp v pfx lvl (valueStr_clean hp v hv) hpfx
      hrestclean hsub'
  termination_by pvSize v
  decreasing_by
    exact childrenOf_size hch

/-- Short-mode rendering of clean children never contains a label pattern. -/
theorem renderChildren_short_clean (p : List Char) (hp : IsLabelPat p)
    (cs : List (String × PyVal)) (lvl : Int) (out : String)
    (hcs : ∀ kv ∈ cs, (kv.1 = "type" ∨ kv.1 = "loc" ∨ keyOk kv.1 = true) ∧
      cleanVal kv.2 = true)
    (h : renderChildren cs ["loc", "type"] lvl "short" = .ok out) :
    ¬ isSub p out.data := by
  cases hcseq : cs with
  | nil =>
      rw [hcseq] at h
      simp only [renderChildren, pure, Except.pure] at h
      obtain rfl := Except.ok.inj h
      exact fun hx => pat_ne_nil hp (isSub_nil_elim hx)
  | cons kv rest' =>
      obtain ⟨k, v⟩ := kv
      rw [hcseq] at h hcs
      have hcs' : ∀ kv ∈ rest',
          (kv.1 = "type" ∨ kv.1 = "loc" ∨ keyOk kv.1 = true) ∧
            cleanVal kv.2 = true :=
        fun kv hkv => hcs kv (List.mem_cons_of_mem _ hkv)
      simp only [renderChildren, Bind.bind, Except.bind] at h
      by_cases hbl : k ∈ (["loc", "type"] : List String)
      · rw [if_pos hbl] at h
        simp only [pure, Except.pure] at h
        cases hr : renderChildren rest' ["loc", "type"] lvl "short" with
        | error e => rw [hr] at h; exact Except.noConfusion h
        | ok tl =>
            rw [hr] at h
            obtain rfl := Except.ok.inj h
            have htl := renderChildren_short_clean p hp rest' lvl tl hcs' hr
            intro hsub
            apply htl
            have : isSub p (([] : List Char) ++ tl.data) := by
              rw [show (("" : String) ++ tl).data = ([] : List Char) ++ tl.data
                from rfl] at hsub
              exact hsub
            simpa using this
      · rw [if_neg hbl] at h
        cases htv : toAsciiTree v (k ++ ":") (lvl + 1) "short" with
        | error e => rw [htv] at h; exact Except.noConfusion h
        | ok hd =>
            rw [htv] at h
            cases hr : renderChildren rest' ["loc", "type"] lvl "short" with
            | error e => rw [hr] at h; exact Except.noConfusion h
            | ok tl =>
                rw [hr] at h
                simp only [pure, Except.pure] at h
                obtain rfl := Except.ok.inj h
                have hk := hcs (k, v) (List.mem_cons_self _ _)
                have hkeyok : keyOk k = true := by
                  rcases hk.1 with hk1 | hk1 | hk1
                  · exact absurd (show k ∈ (["loc", "type"] : List String) by
                      rw [show k = "type" from hk1]; simp) hbl
                  · exact absurd (show k ∈ (["loc", "type"] : List String) by
                      rw [show k = "loc" from hk1]; simp) hbl
                  · exact hk1
                have hlabel : ¬ isSub p (k ++ ":").data := by
                  rw [strdata_append]
                  exact label_clean hp hkeyok
                have hhd := toAsciiTree_short_clean p hp v (k ++ ":")
                  (lvl + 1) hd hk.2 hlabel htv
                have htl := renderChildren_short_clean p hp rest' lvl tl
                  hcs' hr
                intro hsub
                rw [strdata_append] at hsub
                rcases isSub_endsNl_split (pat_no_nl hp)
                    (toAsciiTree_endsNl v (k ++ ":") (lvl + 1) "short" hd htv)
                    hsub with h1 | h1
                · exact hhd h1
                · exact htl h1
  termination_by pvFieldsSize cs
  decreasing_by
    all_goals (rw [hcseq]; simp [pvFieldsSize])
    all_goals omega

end

/-- C6 (amended): in short mode, `to_ascii_tree` skips the `type` and `loc`
fields of every node, so for every clean tree the rendered output contains
neither the substring `type:` nor the substring `loc:`.  Clean (`cleanVal`)
means: every string rendered as a value (string payloads, float reprs, enum
value strings, node type tags) avoids the substrings `type:` and `loc:`;
every field key other than the suppressed `type`/`loc` keys, and every
`SourceLocation` source — which the printer renders immediately followed by
a colon, as `source:start-end` — contains no colon at all and does not end
in the text `type` or `loc`; and the tree contains no tuple values
(`MetaProperty`'s `meta` field), whose rendering is Python's default object
`repr` and is outside the model.  Without the proviso the claim is false: a
`StringLiteral` whose payload is the text `type:` reproduces that text in
the short-mode output, and a node whose `loc.source` is the text `type`
renders `type:1:0` into its own line via `str(loc)`. -/
theorem short_mode_no_type_loc_labels (v : PyVal) (out : String)
    (hv : cleanVal v = true)
    (h : toAsciiTree v "" 0 "short" = .ok out) :
    strHas "type:" out = false ∧ strHas "loc:" out = false := by
  constructor
  · rw [Bool.eq_false_iff]
    intro htrue
    exact toAsciiTree_short_clean "type:".data (Or.inl rfl) v "" 0 out hv
      (fun hx => pat_ne_nil (Or.inl rfl) (isSub_nil_elim hx)) h
      ((occursIn_iff _ _).mp htrue)
  · rw [Bool.eq_false_iff]
    intro htrue
    exact toAsciiTree_short_clean "loc:".data (Or.inr rfl) v "" 0 out hv
      (fun hx => pat_ne_nil (Or.inr rfl) (isSub_nil_elim hx)) h
      ((occursIn_iff _ _).mp htrue)

/-- Witness for C6: a concrete `NullLiteral` node is clean, its short-mode
rendering succeeds, and the theorem yields that the output is label-free. -/
theorem short_mode_no_type_loc_labels_witness :
    strHas "type:" "null\n+-- value: None\n" = false ∧
    strHas "loc:" "null\n+-- value: None\n" = false :=
  short_mode_no_type_loc_labels (Nodes.NullLiteral Option.none)
    "null\n+-- value: None\n" (by decide)
    (by
      simp only [toAsciiTree, renderChildren, Nodes.NullLiteral, Nodes.baseFields,
        Nodes.locVal, valueStr, strRepeat, strRepeatNat, subentryMarker,
        nestedMarker, enumerateKeys, Bind.bind, Except.bind, pure, Except.pure,
        List.cons_append, List.nil_append]
      decide)

end JS

